import Mathlib

/-!
# Olive node ports and transition tool

A shallow embedding of

* `app/node/output.cpp` and `app/node/input.cpp` (the node parameter ports), and
* `app/widget/timelinewidget/tool/transition.cpp` (the transition placement tool).

Ports live in a heap indexed by natural numbers (the C++ code works on
pointers); an operation takes the heap and returns the new heap.  The
observable side effects (calls of `Node::Run`, mutex operations, emitted
signals) are appended to an event log.  `rational` is embedded as `ℚ`.
-/

namespace olive

/-- Time coordinates (`rational` in the source). -/
abbrev rational := ℚ

/-! ## Data model of the ports -/

/-- Modelled from the spec: the interpolation tag of a keyframe (the class
`NodeKeyframe` is declared outside the translated files). -/
inductive Interpolation where
  | hold
  | linear
  | bezier
  deriving DecidableEq, Repr

/-- Modelled from the spec: a keyframe record (`NodeKeyframe`), with its time,
its value and its interpolation tag. -/
structure NodeKeyframe (V : Type) where
  time : rational
  value : V
  type : Interpolation
  deriving DecidableEq, Repr

/-- The setter `NodeKeyframe::set_value`. -/
def NodeKeyframe.set_value {V : Type} (k : NodeKeyframe V) (v : V) : NodeKeyframe V :=
  { k with value := v }

/-- An edge, as the input side stores it: `output()` is the address of the
output port, `input()` the address of the input port. -/
structure NodeEdge where
  output : Nat
  input : Nat
  deriving DecidableEq, Repr

/-- State of a `NodeOutput`: the owning node (`parent()`, possibly null), the
data type tag, the display name and the cached `(time_, value_)` pair. -/
structure NodeOutput (V : Type) where
  parent : Option Nat
  name : String
  data_type_ : Nat
  time_ : rational
  value_ : V

/-- State of a `NodeInput`. -/
structure NodeInput (V : Type) where
  parent : Option Nat
  name : String
  inputs_ : List Nat
  edges_ : List NodeEdge
  keyframes_ : List (NodeKeyframe V)
  keyframing_ : Bool
  dependent_ : Bool
  time_ : rational
  value_ : V

/-- The heap of ports: what the port pointers of the source point into. -/
structure Graph (V : Type) where
  outputs : Nat → NodeOutput V
  inputs : Nat → NodeInput V

/-- Observable steps of the port operations: a call of `Node::Run`, an input
port pulling the value of its connected output, an input port reading its
first keyframe, the mutex operations on the parent node, and an emitted
`ValueChanged` signal. -/
inductive Event where
  | Run (node port : Nat) (time : rational)
  | Pull (input output : Nat) (time : rational)
  | KeyframeRead (input : Nat)
  | Lock (node : Nat)
  | Unlock (node : Nat)
  | ValueChanged (port : Nat) (start stop : rational)
  deriving DecidableEq

/-- The heap together with the log of side effects, oldest first. -/
structure World (V : Type) where
  graph : Graph V
  log : List Event

/-- Writes the state of the output port at address `o`. -/
def Graph.setOutput {V : Type} (g : Graph V) (o : Nat) (p : NodeOutput V) : Graph V :=
  { g with outputs := Function.update g.outputs o p }

/-- Writes the state of the input port at address `i`. -/
def Graph.setInput {V : Type} (g : Graph V) (i : Nat) (p : NodeInput V) : Graph V :=
  { g with inputs := Function.update g.inputs i p }

/-- Number of `Node::Run` calls recorded in a log. -/
def runCount : List Event → Nat
  | [] => 0
  | Event.Run _ _ _ :: l => runCount l + 1
  | _ :: l => runCount l

/-- Number of evaluations by input ports recorded in a log: pulls from the
connected output and keyframe reads. -/
def inputEvalCount : List Event → Nat
  | [] => 0
  | Event.Pull _ _ _ :: l => inputEvalCount l + 1
  | Event.KeyframeRead _ :: l => inputEvalCount l + 1
  | _ :: l => inputEvalCount l

/-- Number of `ValueChanged` signals recorded in a log. -/
def valueChangedCount : List Event → Nat
  | [] => 0
  | Event.ValueChanged _ _ _ :: l => valueChangedCount l + 1
  | _ :: l => valueChangedCount l

/-! ## `NodeOutput` -/

section Ports

variable {V : Type}

/-- The method `NodeOutput::get_value`.  `Run node port time` is the
evaluation entry point of the owning node; it may read and write the whole
heap.  The result is `none` when the cache misses and the port has no parent
(a null dereference in the source). -/
def NodeOutput.get_value (Run : Nat → Nat → rational → Graph V → V × Graph V)
    (self : Nat) (time : rational) (w : World V) : Option (V × World V) :=
  if (w.graph.outputs self).time_ ≠ time then
    match (w.graph.outputs self).parent with
    | none => none
    | some n =>
      let r := Run n self time w.graph
      -- value_ = parent()->Run(this, time);
      let g1 := r.2.setOutput self { r.2.outputs self with value_ := r.1 }
      -- time_ = time;
      let g2 := g1.setOutput self { g1.outputs self with time_ := time }
      some ((g2.outputs self).value_, { graph := g2, log := w.log ++ [Event.Run n self time] })
  else
    some ((w.graph.outputs self).value_, w)

/-! ## `NodeInput` -/

/-- The constructor `NodeInput::NodeInput`: keyframing off, dependent on, and
one default keyframe.  The fields initialised by the base class
(`NodeParam`, declared outside the translated files) are arguments. -/
def NodeInput.new (parent : Option Nat) (time0 : rational) (value0 : V)
    (k0 : NodeKeyframe V) : NodeInput V :=
  { parent := parent, name := "", inputs_ := [], edges_ := [],
    keyframes_ := [] ++ [k0], keyframing_ := false, dependent_ := true,
    time_ := time0, value_ := value0 }

/-- The method `NodeInput::add_data_input`; `GetDefaultDataTypeName` is
declared outside the translated files and is an argument. -/
def NodeInput.add_data_input (GetDefaultDataTypeName : Nat → String)
    (self : Nat) (data_type : Nat) (g : Graph V) : Graph V :=
  let g1 := g.setInput self
    { g.inputs self with inputs_ := (g.inputs self).inputs_ ++ [data_type] }
  if (g1.inputs self).name.isEmpty then
    g1.setInput self { g1.inputs self with name := GetDefaultDataTypeName data_type }
  else
    g1

/-- The method `NodeInput::get_connected_output`: the output of the first
edge, or null. -/
def NodeInput.get_connected_output (self : Nat) (g : Graph V) : Option Nat :=
  match (g.inputs self).edges_ with
  | e :: _ => some e.output
  | [] => none

/-- The method `NodeInput::get_connected_node`. -/
def NodeInput.get_connected_node (self : Nat) (g : Graph V) : Option Nat :=
  match NodeInput.get_connected_output self g with
  | some o => (g.outputs o).parent
  | none => none

/-- The method `NodeInput::get_value`.  The result is `none` where the source
dereferences null or reads the first element of an empty list. -/
def NodeInput.get_value (Run : Nat → Nat → rational → Graph V → V × Graph V)
    (self : Nat) (time : rational) (w : World V) : Option (V × World V) :=
  if (w.graph.inputs self).time_ ≠ time then
    match (w.graph.inputs self).edges_ with
    | e :: _ =>
      -- value_ = edges_.first()->output()->get_value(time);
      match NodeOutput.get_value Run e.output time
          { graph := w.graph, log := w.log ++ [Event.Pull self e.output time] } with
      | none => none
      | some r =>
        let g1 := r.2.graph.setInput self { r.2.graph.inputs self with value_ := r.1 }
        let g2 := g1.setInput self { g1.inputs self with time_ := time }
        some ((g2.inputs self).value_, { graph := g2, log := r.2.log })
    | [] =>
      -- value_ = keyframes_.first().value();
      match (w.graph.inputs self).keyframes_ with
      | [] => none
      | k :: _ =>
        let g1 := w.graph.setInput self { w.graph.inputs self with value_ := k.value }
        let g2 := g1.setInput self { g1.inputs self with time_ := time }
        some ((g2.inputs self).value_,
          { graph := g2, log := w.log ++ [Event.KeyframeRead self] })
  else
    some ((w.graph.inputs self).value_, w)

/-- The method `NodeInput::keyframing`. -/
def NodeInput.keyframing (self : Nat) (g : Graph V) : Bool :=
  (g.inputs self).keyframing_

/-- The method `NodeInput::set_keyframing`. -/
def NodeInput.set_keyframing (self : Nat) (k : Bool) (g : Graph V) : Graph V :=
  g.setInput self { g.inputs self with keyframing_ := k }

/-- The method `NodeInput::dependent`. -/
def NodeInput.dependent (self : Nat) (g : Graph V) : Bool :=
  (g.inputs self).dependent_

/-- The method `NodeInput::set_dependent`. -/
def NodeInput.set_dependent (self : Nat) (d : Bool) (g : Graph V) : Graph V :=
  g.setInput self { g.inputs self with dependent_ := d }

/-- Appends the mutex event of `parent()->Lock()` or `parent()->Unlock()`
when `lock_mutex` holds, that is when the port has a parent. -/
def mutexEvent (mk : Nat → Event) (parent : Option Nat) (log : List Event) : List Event :=
  match parent with
  | some n => log ++ [mk n]
  | none => log

/-- The method `NodeInput::set_value`.  `RATIONAL_MIN` and `RATIONAL_MAX` are
constants declared outside the translated files.  The result is `none` where
the source takes the first element of an empty keyframe list. -/
def NodeInput.set_value (RATIONAL_MIN RATIONAL_MAX : rational)
    (self : Nat) (value : V) (w : World V) : Option (World V) :=
  let parent := (w.graph.inputs self).parent
  let log1 := mutexEvent Event.Lock parent w.log
  if NodeInput.keyframing self w.graph then
    -- FIXME: Keyframing code using time()
    some { graph := w.graph, log := mutexEvent Event.Unlock parent log1 }
  else
    match (w.graph.inputs self).keyframes_ with
    | [] => none
    | k :: ks =>
      let g1 := w.graph.setInput self
        { w.graph.inputs self with keyframes_ := k.set_value value :: ks }
      let log2 := log1 ++ [Event.ValueChanged self RATIONAL_MIN RATIONAL_MAX]
      some { graph := g1, log := mutexEvent Event.Unlock parent log2 }

/-- Modelled from the spec: `NodeParam::ConnectEdge(output, input)`, which is
not in the translated files.  An input port has at most one incoming edge, and
after the call the input is bound to `output`; only the input side stores the
edge. -/
def ConnectEdge (output input : Nat) (g : Graph V) : Graph V :=
  g.setInput input { g.inputs input with edges_ := [{ output := output, input := input }] }

/-- The static method `NodeInput::CopyValues`. -/
def NodeInput.CopyValues (source dest : Nat) (g : Graph V) : Graph V :=
  -- dest->keyframes_ = source->keyframes_;
  let g1 := g.setInput dest { g.inputs dest with keyframes_ := (g.inputs source).keyframes_ }
  -- dest->set_keyframing(source->keyframing());
  let g2 := NodeInput.set_keyframing dest (NodeInput.keyframing source g1) g1
  match NodeInput.get_connected_output source g2 with
  | some o => ConnectEdge o dest g2
  | none => g2

/-- The invariant of the keyframe lists: every input port of the heap has at
least one keyframe. -/
def KeyframesNonEmpty (g : Graph V) : Prop :=
  ∀ i, (g.inputs i).keyframes_ ≠ []

end Ports

/-! ## The transition tool -/

/-- The enumeration `Timeline::MovementMode`. -/
inductive MovementMode where
  | kNone
  | kMove
  | kTrimIn
  | kTrimOut
  deriving DecidableEq, Repr

/-- A `Track::Reference`: track type and index. -/
structure TrackReference where
  type : Nat
  index : Int
  deriving DecidableEq, Repr

/-- A `TimelineCoordinate`. -/
structure TimelineCoordinate where
  frame : rational
  track : TrackReference
  deriving DecidableEq

/-- What the tool reads of a block: whether it is a `ClipBlock` (the
`dynamic_cast` succeeds), its in point, length and out point, its neighbours
and the transitions attached to each side (null when absent). -/
structure Block where
  is_clip : Bool
  in_ : rational
  length : rational
  out : rational
  previous : Option Nat
  next : Option Nat
  in_transition : Option Nat
  out_transition : Option Nat

/-- What the tool reads of a track. -/
structure Track where
  IsLocked : Bool
  BlockAtTime : rational → Option Nat

/-- The timeline host (`parent()`), read only: the tracks by reference (null
when absent) and the heap of blocks. -/
structure Timeline where
  GetTrackFromReference : TrackReference → Option Track
  blocks : Nat → Block

/-- The four output parameters of `GetBlocksAtCoord`. -/
structure BlocksAtCoord where
  primary : Option Nat
  secondary : Option Nat
  trim_mode : MovementMode
  start_point : rational
  deriving DecidableEq

/-- Whether a block pointer (possibly null) points to a `ClipBlock`. -/
def isClipBlock (tl : Timeline) : Option Nat → Bool
  | some b => (tl.blocks b).is_clip
  | none => false

/-- The method `TransitionTool::GetBlocksAtCoord`: the returned flag and the
output parameters after the call (`res` holds them before the call). -/
def GetBlocksAtCoord (tl : Timeline) (coord : TimelineCoordinate) (res : BlocksAtCoord) :
    Bool × BlocksAtCoord :=
  let cursor_frame := coord.frame
  match tl.GetTrackFromReference coord.track with
  | none => (false, res)
  | some t =>
    if t.IsLocked then (false, res) else
    match t.BlockAtTime coord.frame with
    | none => (false, res)
    | some b =>
      if !(tl.blocks b).is_clip then (false, res) else
      let block_at_time := tl.blocks b
      let tenth_point := block_at_time.length / 10
      if cursor_frame < block_at_time.in_ + block_at_time.length / 2 then
        if block_at_time.in_transition.isSome then (false, res) else
        let other_block :=
          if cursor_frame < block_at_time.in_ + tenth_point
              && isClipBlock tl block_at_time.previous then
            block_at_time.previous
          else none
        (true, { primary := some b, secondary := other_block,
                 trim_mode := MovementMode.kTrimIn, start_point := block_at_time.in_ })
      else
        if block_at_time.out_transition.isSome then (false, res) else
        let other_block :=
          if cursor_frame > block_at_time.out - tenth_point
              && isClipBlock tl block_at_time.next then
            block_at_time.next
          else none
        (true, { primary := some b, secondary := other_block,
                 trim_mode := MovementMode.kTrimOut, start_point := block_at_time.out })

/-- A `TimelineViewGhostItem`, as far as the tool sets it: track, in and out
points, mode and the two tagged block references (null when unset). -/
structure Ghost where
  track : TrackReference
  in_ : rational
  out : rational
  in_adj : rational
  out_adj : rational
  mode : MovementMode
  kAttachedBlock : Option Nat
  kReferenceBlock : Option Nat
  deriving DecidableEq

/-- A `TimelineViewMouseEvent`. -/
structure TimelineViewMouseEvent where
  GetCoordinates : TimelineCoordinate
  GetTrack : TrackReference
  GetFrame : rational

/-- The inputs of a transition block. -/
inductive TransitionInput where
  | kOutBlockInput
  | kInBlockInput
  deriving DecidableEq, Repr

/-- The transition node a release creates: the cross dissolve fallback, or
the node the factory creates from the selected identifier. -/
inductive TransitionKind where
  | CrossDissolveTransition
  | CreateFromID (id : String)
  deriving DecidableEq, Repr

/-- A node named in a command: the transition being created, or a block given
by its pointer (possibly null). -/
inductive NodeRef where
  | transition
  | block (b : Option Nat)
  deriving DecidableEq, Repr

/-- The undo commands the tool builds.  `NodeAdd` carries the kind of the
transition and the length set on it; `NodeSetPosition` the node and its
position relative to the transition; `TrackPlaceBlock` the track and the in
point; `NodeEdgeAdd` the block and the input of the transition it is
connected to. -/
inductive Command where
  | NodeAdd (kind : TransitionKind) (length : rational)
  | NodeSetPosition (node : NodeRef) (x y : rational)
  | TrackPlaceBlock (track : TrackReference) (at_ : rational)
  | NodeEdgeAdd (block : Option Nat) (input : TransitionInput)
  deriving DecidableEq

/-- Whether a command is a `NodeAddCommand`. -/
def Command.isNodeAdd : Command → Bool
  | Command.NodeAdd _ _ => true
  | _ => false

/-- Whether a command is a `NodeSetPositionCommand`. -/
def Command.isNodeSetPosition : Command → Bool
  | Command.NodeSetPosition _ _ _ => true
  | _ => false

/-- Whether a command is a `TrackPlaceBlockCommand`. -/
def Command.isTrackPlaceBlock : Command → Bool
  | Command.TrackPlaceBlock _ _ => true
  | _ => false

/-- Whether a command is a `NodeEdgeAddCommand`. -/
def Command.isNodeEdgeAdd : Command → Bool
  | Command.NodeEdgeAdd _ _ => true
  | _ => false

/-- The block the first `NodeEdgeAddCommand` of a batch connects to the given
input of the transition; null when the batch connects none. -/
def connectedTo (input : TransitionInput) : List Command → Option Nat
  | [] => none
  | Command.NodeEdgeAdd b i :: l => if i = input then b else connectedTo input l
  | _ :: l => connectedTo input l

/-- State of the tool and of what it writes in its host: the ghost being
dragged, the dual flag, the snap points, the drag start, the ghosts added to
the view, the transition overlay and the undo stack. -/
structure ToolState where
  ghost_ : Option Ghost
  dual_transition_ : Bool
  snap_points_ : List rational
  drag_start_point_ : rational
  ghosts : List Ghost
  overlay : Option Nat × Option Nat
  undo_stack : List (List Command)
  deriving DecidableEq

/-- The method `TransitionTool::MousePress`.  `uninit` stands for the
indeterminate initial values of the four local variables. -/
def MousePress (tl : Timeline) (event : TimelineViewMouseEvent) (uninit : BlocksAtCoord)
    (s : ToolState) : ToolState :=
  let r := GetBlocksAtCoord tl event.GetCoordinates uninit
  if !r.1 then s else
  let primary := r.2.primary
  let secondary := r.2.secondary
  let trim_mode := r.2.trim_mode
  let transition_start_point := r.2.start_point
  let ghost0 : Ghost :=
    { track := event.GetTrack, in_ := transition_start_point, out := transition_start_point,
      in_adj := 0, out_adj := 0, mode := trim_mode,
      kAttachedBlock := primary, kReferenceBlock := none }
  let ghost := if secondary.isSome then { ghost0 with kReferenceBlock := secondary } else ghost0
  { s with
    ghost_ := some ghost
    dual_transition_ := secondary.isSome
    ghosts := s.ghosts ++ [ghost]
    snap_points_ := s.snap_points_ ++ [transition_start_point]
    drag_start_point_ := event.GetFrame }

/-- The ghost `MousePress` has built when it returns from a successful press
with the resolved output parameters `r`: the reference block is the secondary
block, null when none was resolved. -/
def pressGhost (event : TimelineViewMouseEvent) (r : BlocksAtCoord) : Ghost :=
  { track := event.GetTrack, in_ := r.start_point, out := r.start_point,
    in_adj := 0, out_adj := 0, mode := r.trim_mode,
    kAttachedBlock := r.primary, kReferenceBlock := r.secondary }

/-- What the tool uses of code declared outside the translated files: the
identifier of the selected transition (`Core::GetSelectedTransition`), the
accessors `GetAdjustedLength` and `GetAdjustedIn` of the ghost, and the ghost
resizing of `AddTool::MouseMoveInternal`.
Modelled from the spec: `MouseMoveInternal(frame, dual)` is purely visual and
only resizes the ghost; it is given as the new in and out adjustments. -/
structure ToolEnv where
  GetSelectedTransition : String
  GetAdjustedLength : Ghost → rational
  GetAdjustedIn : Ghost → rational
  MouseMoveInternal : rational → Bool → ToolState → rational × rational

/-- The method `TransitionTool::HoverMove`: the overlay it asks the view for. -/
def HoverMove (tl : Timeline) (event : TimelineViewMouseEvent) (s : ToolState) : ToolState :=
  let r := GetBlocksAtCoord tl event.GetCoordinates
    { primary := none, secondary := none, trim_mode := MovementMode.kNone, start_point := 0 }
  let primary := r.2.primary
  let secondary := r.2.secondary
  -- std::swap(primary, secondary) when trim_mode == Timeline::kTrimIn
  let swapped := if r.2.trim_mode = MovementMode.kTrimIn then (secondary, primary)
    else (primary, secondary)
  { s with overlay := (swapped.1, swapped.2) }

/-- The method `TransitionTool::MouseMove`. -/
def MouseMove (env : ToolEnv) (event : TimelineViewMouseEvent) (s : ToolState) : ToolState :=
  match s.ghost_ with
  | none => s
  | some ghost =>
    let adj := env.MouseMoveInternal event.GetFrame s.dual_transition_ s
    let resized := { ghost with in_adj := adj.1, out_adj := adj.2 }
    { s with
      ghost_ := some resized
      ghosts := s.ghosts.map fun g => if g = ghost then resized else g }

/-- The command batch `MouseRelease` builds for a ghost of nonzero adjusted
length. -/
def releaseCommands (env : ToolEnv) (dual_transition_ : Bool) (ghost : Ghost) : List Command :=
  let track := ghost.track
  let transition :=
    if env.GetSelectedTransition.isEmpty then TransitionKind.CrossDissolveTransition
    else TransitionKind.CreateFromID env.GetSelectedTransition
  let len := env.GetAdjustedLength ghost
  let command : List Command :=
    [Command.NodeAdd transition len,
     Command.NodeSetPosition NodeRef.transition 0 0,
     Command.TrackPlaceBlock track (env.GetAdjustedIn ghost)]
  if dual_transition_ then
    let active_block := ghost.kAttachedBlock
    let friend_block := ghost.kReferenceBlock
    let out_block := if ghost.mode = MovementMode.kTrimIn then friend_block else active_block
    let in_block := if ghost.mode = MovementMode.kTrimIn then active_block else friend_block
    command ++
      [Command.NodeEdgeAdd out_block TransitionInput.kOutBlockInput,
       Command.NodeEdgeAdd in_block TransitionInput.kInBlockInput,
       Command.NodeSetPosition (NodeRef.block out_block) (-1) (-1 / 2),
       Command.NodeSetPosition (NodeRef.block in_block) (-1) (1 / 2)]
  else
    let block_to_transition := ghost.kAttachedBlock
    let transition_input_to_connect :=
      if ghost.mode = MovementMode.kTrimIn then TransitionInput.kInBlockInput
      else TransitionInput.kOutBlockInput
    command ++
      [Command.NodeEdgeAdd block_to_transition transition_input_to_connect,
       Command.NodeSetPosition (NodeRef.block block_to_transition) (-1) 0]

/-- The method `TransitionTool::MouseRelease`.  The result is `none` when
`ghost_` is null: the first statement calls `ghost_->GetTrack()` before the
test `if (ghost_)`. -/
def MouseRelease (env : ToolEnv) (s : ToolState) : Option ToolState :=
  match s.ghost_ with
  | none => none
  | some ghost =>
    let s1 :=
      if env.GetAdjustedLength ghost ≠ 0 then
        -- Core::instance()->undo_stack()->push(command);
        -- parent()->SetViewTransitionOverlay(nullptr, nullptr);
        { s with
          undo_stack := s.undo_stack ++ [releaseCommands env s.dual_transition_ ghost]
          overlay := (none, none) }
      else s
    -- parent()->ClearGhosts(); snap_points_.clear(); ghost_ = nullptr;
    some { s1 with ghosts := [], snap_points_ := [], ghost_ := none }

/-! ## The keyframe sort of the graph view -/

/-- The inner loop of the sort in `GraphView::paintEvent`: the index `i` is
inserted before the first entry of `sorted_keys` whose time is greater than
the time of `i`, and appended when there is none. -/
def insertKey (keyframe_times : List Int) (i : Nat) : List Nat → List Nat
  | [] => [i]
  | k :: ks =>
    if keyframe_times.getD k 0 > keyframe_times.getD i 0 then i :: k :: ks
    else k :: insertKey keyframe_times i ks

/-- The outer loop, run for `i = 0, ..., n - 1` from the empty vector. -/
def sortLoop (keyframe_times : List Int) : Nat → List Nat
  | 0 => []
  | n + 1 => insertKey keyframe_times n (sortLoop keyframe_times n)

/-- The vector `sorted_keys` built in `GraphView::paintEvent`. -/
def sorted_keys (keyframe_times : List Int) : List Nat :=
  sortLoop keyframe_times keyframe_times.length

/-- The order the sort establishes between an earlier entry `a` and a later
entry `b` of `sorted_keys`: the time of `a` is smaller, or the times are equal
and `a` is the smaller index. -/
def keyBefore (keyframe_times : List Int) (a b : Nat) : Prop :=
  keyframe_times.getD a 0 < keyframe_times.getD b 0 ∨
    (keyframe_times.getD a 0 = keyframe_times.getD b 0 ∧ a < b)

/-! ## Concrete states -/

/-- An output port owned by node `0`, with cache `(0, 5)`. -/
def exOutput : NodeOutput Int :=
  { parent := some 0, name := "out", data_type_ := 0, time_ := 0, value_ := 5 }

/-- An unconnected input port with one keyframe of value `1`, keyframing off,
and cache `(0, 1)`. -/
def exInput : NodeInput Int :=
  { parent := some 0, name := "in", inputs_ := [], edges_ := [],
    keyframes_ := [{ time := 0, value := 1, type := Interpolation.hold }],
    keyframing_ := false, dependent_ := true, time_ := 0, value_ := 1 }

/-- An input port connected to output port `3`, with two keyframes and
keyframing on. -/
def exInputConnected : NodeInput Int :=
  { parent := some 0, name := "in", inputs_ := [], edges_ := [{ output := 3, input := 1 }],
    keyframes_ := [{ time := 0, value := 8, type := Interpolation.hold },
                   { time := 2, value := 9, type := Interpolation.linear }],
    keyframing_ := true, dependent_ := true, time_ := 0, value_ := 8 }

/-- An unconnected input port with two keyframes and keyframing on. -/
def exInputKeyframed : NodeInput Int :=
  { parent := none, name := "in", inputs_ := [], edges_ := [],
    keyframes_ := [{ time := 0, value := 8, type := Interpolation.hold },
                   { time := 2, value := 9, type := Interpolation.linear }],
    keyframing_ := true, dependent_ := true, time_ := 0, value_ := 8 }

/-- A heap in which the input port `1` is connected to the output port `3`, the
input port `2` is unconnected and keyframed, and every other input port is
unconnected and not keyframed. -/
def exGraph : Graph Int :=
  { outputs := fun _ => exOutput,
    inputs := fun i =>
      if i = 1 then exInputConnected else if i = 2 then exInputKeyframed else exInput }

/-- The heap `exGraph` with an empty log. -/
def exWorld : World Int :=
  { graph := exGraph, log := [] }

/-- An evaluation function: every node yields `42` and leaves the heap alone. -/
def exRun : Nat → Nat → rational → Graph Int → Int × Graph Int :=
  fun _ _ _ g => (42, g)

/-- A clip from frame `0` to frame `10`, followed by the block `2`, without
transitions. -/
def exClipA : Block :=
  { is_clip := true, in_ := 0, length := 10, out := 10, previous := none, next := some 2,
    in_transition := none, out_transition := none }

/-- A clip from frame `10` to frame `20`, between the blocks `1` and `3`, with
the transition `9` on its in side. -/
def exClipB : Block :=
  { is_clip := true, in_ := 10, length := 10, out := 20, previous := some 1, next := some 3,
    in_transition := some 9, out_transition := none }

/-- A block from frame `20` to frame `30` that is not a clip. -/
def exGap : Block :=
  { is_clip := false, in_ := 20, length := 10, out := 30, previous := some 2, next := none,
    in_transition := none, out_transition := none }

/-- An unlocked track holding `exClipA`, `exClipB` and `exGap` as the blocks
`1`, `2` and `3`; no block from frame `30` on. -/
def exTrack : Track :=
  { IsLocked := false,
    BlockAtTime := fun f =>
      if f < 10 then some 1 else if f < 20 then some 2 else if f < 30 then some 3 else none }

/-- The same track, locked. -/
def exLockedTrack : Track :=
  { exTrack with IsLocked := true }

/-- A timeline with the unlocked track at index `0`, the locked one at index
`1`, and no other track. -/
def exTimeline : Timeline :=
  { GetTrackFromReference := fun r =>
      if r.index = 0 then some exTrack else if r.index = 1 then some exLockedTrack else none,
    blocks := fun b => if b = 1 then exClipA else if b = 2 then exClipB else exGap }

/-- Output parameters as `HoverMove` initialises them. -/
def exRes : BlocksAtCoord :=
  { primary := none, secondary := none, trim_mode := MovementMode.kNone, start_point := 0 }

/-- A mouse event at frame `f` on the track of index `i`. -/
def exEvent (f : rational) (i : Int) : TimelineViewMouseEvent :=
  { GetCoordinates := { frame := f, track := { type := 0, index := i } },
    GetTrack := { type := 0, index := i }, GetFrame := f }

/-- The idle tool: no ghost, no snap point, nothing on the undo stack. -/
def exIdle : ToolState :=
  { ghost_ := none, dual_transition_ := false, snap_points_ := [], drag_start_point_ := 0,
    ghosts := [], overlay := (none, none), undo_stack := [] }

/-- The cursor at frame `19/2` on the track `0`: within a tenth of the end of
`exClipA`, whose successor `exClipB` is a clip. -/
def exCoordDual : TimelineCoordinate :=
  { frame := 19 / 2, track := { type := 0, index := 0 } }

/-- A tool dragging a dual ghost in trim-out mode from frame `10`, stretched
by `2` frames on each side: attached to the block `1`, with the block `2` as
reference. -/
def exDragging : ToolState :=
  { ghost_ := some { track := { type := 0, index := 0 }, in_ := 10, out := 10, in_adj := -2,
                     out_adj := 2, mode := MovementMode.kTrimOut, kAttachedBlock := some 1,
                     kReferenceBlock := some 2 },
    dual_transition_ := true, snap_points_ := [10], drag_start_point_ := 19 / 2,
    ghosts := [], overlay := (some 1, some 2), undo_stack := [] }

/-- An environment with no selected transition, in which the adjusted in and
out points are the points plus their adjustments and a move stretches the
ghost from the drag start to the cursor. -/
def exEnv : ToolEnv :=
  { GetSelectedTransition := "",
    GetAdjustedLength := fun g => (g.out + g.out_adj) - (g.in_ + g.in_adj),
    GetAdjustedIn := fun g => g.in_ + g.in_adj,
    MouseMoveInternal := fun frame outwards s =>
      let movement := frame - s.drag_start_point_
      if movement = 0 then (0, 0)
      else if movement > 0 then ((if outwards then -movement else 0), movement)
      else (movement, (if outwards then -movement else 0)) }

/-! ## Helper lemmas on the heap and on the log counters -/

section Lemmas

variable {V : Type}

@[simp] theorem setOutput_outputs_same (g : Graph V) (o : Nat) (p : NodeOutput V) :
    (g.setOutput o p).outputs o = p := by
  simp [Graph.setOutput]

@[simp] theorem setOutput_inputs (g : Graph V) (o : Nat) (p : NodeOutput V) :
    (g.setOutput o p).inputs = g.inputs := rfl

@[simp] theorem setInput_inputs_same (g : Graph V) (i : Nat) (p : NodeInput V) :
    (g.setInput i p).inputs i = p := by
  simp [Graph.setInput]

theorem setInput_inputs_other (g : Graph V) (i j : Nat) (p : NodeInput V) (h : j ≠ i) :
    (g.setInput i p).inputs j = g.inputs j := by
  simp [Graph.setInput, Function.update, h]

@[simp] theorem setInput_outputs (g : Graph V) (i : Nat) (p : NodeInput V) :
    (g.setInput i p).outputs = g.outputs := rfl

theorem runCount_append (l m : List Event) : runCount (l ++ m) = runCount l + runCount m := by
  induction l with
  | nil => simp [runCount]
  | cons e l ih =>
    cases e
    all_goals simp [runCount, ih]
    all_goals omega

theorem inputEvalCount_append (l m : List Event) :
    inputEvalCount (l ++ m) = inputEvalCount l + inputEvalCount m := by
  induction l with
  | nil => simp [inputEvalCount]
  | cons e l ih =>
    cases e
    all_goals simp [inputEvalCount, ih]
    all_goals omega

theorem valueChangedCount_append (l m : List Event) :
    valueChangedCount (l ++ m) = valueChangedCount l + valueChangedCount m := by
  induction l with
  | nil => simp [valueChangedCount]
  | cons e l ih =>
    cases e
    all_goals simp [valueChangedCount, ih]
    all_goals omega

/-- A cache hit of an output port returns the cached value and changes nothing. -/
theorem output_get_value_hit (Run : Nat → Nat → rational → Graph V → V × Graph V)
    (self : Nat) (time : rational) (w : World V)
    (h : (w.graph.outputs self).time_ = time) :
    NodeOutput.get_value Run self time w = some ((w.graph.outputs self).value_, w) := by
  simp [NodeOutput.get_value, h]

/-- A cache miss of an output port with a parent runs the parent once. -/
theorem output_get_value_miss (Run : Nat → Nat → rational → Graph V → V × Graph V)
    (self : Nat) (time : rational) (w : World V) (n : Nat)
    (hp : (w.graph.outputs self).parent = some n)
    (h : (w.graph.outputs self).time_ ≠ time) :
    NodeOutput.get_value Run self time w =
      some ((Run n self time w.graph).1,
        { graph := ((Run n self time w.graph).2.setOutput self
              { (Run n self time w.graph).2.outputs self with
                value_ := (Run n self time w.graph).1 }).setOutput self
            { (Run n self time w.graph).2.outputs self with
              value_ := (Run n self time w.graph).1, time_ := time },
          log := w.log ++ [Event.Run n self time] }) := by
  simp [NodeOutput.get_value, h, hp]

/-- Whatever an output port returns, its cache then holds the requested time
and the returned value, and the log grew by at most one `Run`. -/
theorem output_get_value_post (Run : Nat → Nat → rational → Graph V → V × Graph V)
    (self : Nat) (time : rational) (w : World V) (v : V) (w1 : World V)
    (h : NodeOutput.get_value Run self time w = some (v, w1)) :
    (w1.graph.outputs self).time_ = time ∧ (w1.graph.outputs self).value_ = v ∧
      runCount w1.log =
        runCount w.log + (if (w.graph.outputs self).time_ ≠ time then 1 else 0) ∧
      inputEvalCount w1.log = inputEvalCount w.log := by
  by_cases ht : (w.graph.outputs self).time_ = time
  · rw [output_get_value_hit Run self time w ht] at h
    simp only [Option.some.injEq, Prod.mk.injEq] at h
    obtain ⟨hv, hw⟩ := h
    subst hw
    simp [ht, hv]
  · cases hp : (w.graph.outputs self).parent with
    | none => simp [NodeOutput.get_value, ht, hp] at h
    | some n =>
      rw [output_get_value_miss Run self time w n hp ht] at h
      simp only [Option.some.injEq, Prod.mk.injEq] at h
      obtain ⟨hv, hw⟩ := h
      subst hw
      simp [ht, hv, runCount_append, inputEvalCount_append, runCount, inputEvalCount]

/-- The value and the heap an output port returns do not depend on the log
it is handed; the log only grows by what the call appends. -/
theorem output_get_value_log (Run : Nat → Nat → rational → Graph V → V × Graph V)
    (self : Nat) (time : rational) (g : Graph V) (l1 l2 : List Event) (v : V) (w1 : World V)
    (h : NodeOutput.get_value Run self time { graph := g, log := l1 } = some (v, w1)) :
    ∃ w2, NodeOutput.get_value Run self time { graph := g, log := l2 } = some (v, w2) ∧
      w2.graph = w1.graph := by
  by_cases ht : (g.outputs self).time_ = time
  · simp only [NodeOutput.get_value, ht, ne_eq, not_true_eq_false, ite_false,
      Option.some.injEq, Prod.mk.injEq] at h ⊢
    obtain ⟨hv, hw⟩ := h
    subst hw
    exact ⟨_, ⟨hv, rfl⟩, rfl⟩
  · cases hp : (g.outputs self).parent with
    | none => simp [NodeOutput.get_value, ht, hp] at h
    | some n =>
      simp only [NodeOutput.get_value, ht, hp, ne_eq, not_false_eq_true, ite_true,
        Option.some.injEq, Prod.mk.injEq] at h ⊢
      obtain ⟨hv, hw⟩ := h
      subst hw
      exact ⟨_, ⟨hv, rfl⟩, rfl⟩

/-- A cache hit of an input port returns the cached value and changes nothing. -/
theorem input_get_value_hit (Run : Nat → Nat → rational → Graph V → V × Graph V)
    (self : Nat) (time : rational) (w : World V)
    (h : (w.graph.inputs self).time_ = time) :
    NodeInput.get_value Run self time w = some ((w.graph.inputs self).value_, w) := by
  simp [NodeInput.get_value, h]

/-- Whatever an input port returns, its cache then holds the requested time
and the returned value, and the log grew by one input evaluation exactly when
the cache missed. -/
theorem input_get_value_post (Run : Nat → Nat → rational → Graph V → V × Graph V)
    (self : Nat) (time : rational) (w : World V) (v : V) (w1 : World V)
    (h : NodeInput.get_value Run self time w = some (v, w1)) :
    (w1.graph.inputs self).time_ = time ∧ (w1.graph.inputs self).value_ = v ∧
      inputEvalCount w1.log =
        inputEvalCount w.log + (if (w.graph.inputs self).time_ ≠ time then 1 else 0) := by
  by_cases ht : (w.graph.inputs self).time_ = time
  · rw [input_get_value_hit Run self time w ht] at h
    simp only [Option.some.injEq, Prod.mk.injEq] at h
    obtain ⟨hv, hw⟩ := h
    subst hw
    simp [ht, hv]
  · cases he : (w.graph.inputs self).edges_ with
    | nil =>
      cases hk : (w.graph.inputs self).keyframes_ with
      | nil => simp [NodeInput.get_value, ht, he, hk] at h
      | cons k ks =>
        simp only [NodeInput.get_value, ht, he, hk, ne_eq, not_false_eq_true, ite_true,
          Option.some.injEq, Prod.mk.injEq] at h
        obtain ⟨hv, hw⟩ := h
        subst hw
        simp at hv
        simp [ht, hv, inputEvalCount_append, inputEvalCount]
    | cons e es =>
      cases ho : NodeOutput.get_value Run e.output time
          { graph := w.graph, log := w.log ++ [Event.Pull self e.output time] } with
      | none => simp [NodeInput.get_value, ht, he, ho] at h
      | some r =>
        obtain ⟨rv, rw1⟩ := r
        have hpost := output_get_value_post Run e.output time _ rv rw1 ho
        simp only [NodeInput.get_value, ht, he, ho, ne_eq, not_false_eq_true, ite_true,
          Option.some.injEq, Prod.mk.injEq] at h
        obtain ⟨hv, hw⟩ := h
        subst hw
        simp at hv
        simp [ht, hv, hpost.2.2.2, inputEvalCount_append, inputEvalCount]

/-- The result of `set_value` on a port with keyframing off and a first
keyframe. -/
theorem set_value_not_keyframing (RATIONAL_MIN RATIONAL_MAX : rational) (self : Nat) (v : V)
    (w : World V) (k : NodeKeyframe V) (ks : List (NodeKeyframe V))
    (hkf : (w.graph.inputs self).keyframing_ = false)
    (hk : (w.graph.inputs self).keyframes_ = k :: ks) :
    NodeInput.set_value RATIONAL_MIN RATIONAL_MAX self v w =
      some { graph := w.graph.setInput self
               { w.graph.inputs self with keyframes_ := k.set_value v :: ks },
             log := mutexEvent Event.Unlock (w.graph.inputs self).parent
               (mutexEvent Event.Lock (w.graph.inputs self).parent w.log ++
                 [Event.ValueChanged self RATIONAL_MIN RATIONAL_MAX]) } := by
  simp [NodeInput.set_value, NodeInput.keyframing, hkf, hk]

end Lemmas

/-! ## Theorems on the ports -/

section PortTheorems

variable {V : Type}

/-- C1: `NodeOutput::get_value` on a port whose cached time differs from `t`
returns the value of the owning node's `Run(port, t)`, invokes `Run` exactly
once, and leaves the cache equal to `(t, that value)`; on a port whose cached
time equals `t` it returns the cached value, does not invoke `Run` and leaves
everything unchanged. -/
theorem C1_output_get_value (Run : Nat → Nat → rational → Graph V → V × Graph V)
    (self : Nat) (t : rational) (w : World V) :
    (∀ n, (w.graph.outputs self).parent = some n → (w.graph.outputs self).time_ ≠ t →
      ∃ w2, NodeOutput.get_value Run self t w = some ((Run n self t w.graph).1, w2) ∧
        w2.log = w.log ++ [Event.Run n self t] ∧
        runCount w2.log = runCount w.log + 1 ∧
        (w2.graph.outputs self).time_ = t ∧
        (w2.graph.outputs self).value_ = (Run n self t w.graph).1) ∧
    ((w.graph.outputs self).time_ = t →
      NodeOutput.get_value Run self t w = some ((w.graph.outputs self).value_, w)) := by
  refine ⟨fun n hp ht => ?_, fun ht => output_get_value_hit Run self t w ht⟩
  refine ⟨_, output_get_value_miss Run self t w n hp ht, rfl, ?_, ?_, ?_⟩
  · simp [runCount_append, runCount]
  · simp
  · simp

/-- Witness of C1: a miss at time `1` on the port `3` (cache `(0, 5)`, parent
node `0`), and a hit at time `0`. -/
theorem C1_output_get_value_witness :
    (∃ w2, NodeOutput.get_value exRun 3 1 exWorld = some (42, w2) ∧
        w2.log = [Event.Run 0 3 1] ∧
        runCount w2.log = 1 ∧
        (w2.graph.outputs 3).time_ = 1 ∧
        (w2.graph.outputs 3).value_ = 42) ∧
    NodeOutput.get_value exRun 3 0 exWorld = some (5, exWorld) :=
  ⟨(C1_output_get_value exRun 3 1 exWorld).1 0 rfl (by simp [exWorld, exGraph, exOutput]),
   (C1_output_get_value exRun 3 0 exWorld).2 rfl⟩

/-- C2 (as stated, refuted): on the output port `3`, whose cached time already
is `0`, two successive calls of `get_value(0)` return the same value but the
evaluation is not triggered once: `Run` is never invoked. -/
theorem C2_cache_coherence_counterexample :
    ¬ ∃ v1 w1 v2 w2, NodeOutput.get_value exRun 3 0 exWorld = some (v1, w1) ∧
        NodeOutput.get_value exRun 3 0 w1 = some (v2, w2) ∧ v1 = v2 ∧
        runCount w2.log = runCount exWorld.log + 1 := by
  rintro ⟨v1, w1, v2, w2, h1, h2, -, hc⟩
  rw [output_get_value_hit exRun 3 0 exWorld rfl] at h1
  simp only [Option.some.injEq, Prod.mk.injEq] at h1
  obtain ⟨-, hw1⟩ := h1
  subst hw1
  rw [output_get_value_hit exRun 3 0 exWorld rfl] at h2
  simp only [Option.some.injEq, Prod.mk.injEq] at h2
  obtain ⟨-, hw2⟩ := h2
  subst hw2
  simp [exWorld, runCount] at hc

/-- C2 (amended): for an output port and for an input port, when `get_value(t)`
returns, a second `get_value(t)` right after it returns the same value,
triggers no evaluation and changes nothing; the first call triggers the
evaluation exactly once when the cached time differed from `t`, and not at all
when the cached time already was `t`. -/
theorem C2_cache_coherence (Run : Nat → Nat → rational → Graph V → V × Graph V)
    (self : Nat) (t : rational) (w : World V) :
    (∀ v w1, NodeOutput.get_value Run self t w = some (v, w1) →
      NodeOutput.get_value Run self t w1 = some (v, w1) ∧
      runCount w1.log =
        runCount w.log + (if (w.graph.outputs self).time_ ≠ t then 1 else 0)) ∧
    (∀ v w1, NodeInput.get_value Run self t w = some (v, w1) →
      NodeInput.get_value Run self t w1 = some (v, w1) ∧
      inputEvalCount w1.log =
        inputEvalCount w.log + (if (w.graph.inputs self).time_ ≠ t then 1 else 0)) := by
  constructor
  · intro v w1 h
    have hpost := output_get_value_post Run self t w v w1 h
    refine ⟨?_, hpost.2.2.1⟩
    rw [output_get_value_hit Run self t w1 hpost.1, hpost.2.1]
  · intro v w1 h
    have hpost := input_get_value_post Run self t w v w1 h
    refine ⟨?_, hpost.2.2⟩
    rw [input_get_value_hit Run self t w1 hpost.1, hpost.2.1]

/-- Witness of C2: the output port `3` and the unconnected input port `0`,
both with cached time `0`, asked at time `0` (a hit: no evaluation), and the
output port `3` asked at time `1` (a miss: one evaluation). -/
theorem C2_cache_coherence_witness :
    (NodeOutput.get_value exRun 3 0 exWorld = some (5, exWorld) ∧
      runCount exWorld.log = runCount exWorld.log + 0) ∧
    (NodeInput.get_value exRun 0 0 exWorld = some (1, exWorld) ∧
      inputEvalCount exWorld.log = inputEvalCount exWorld.log + 0) ∧
    (∃ w1, NodeOutput.get_value exRun 3 1 exWorld = some (42, w1) ∧
      NodeOutput.get_value exRun 3 1 w1 = some (42, w1) ∧
      runCount w1.log = runCount exWorld.log + 1) :=
  ⟨(C2_cache_coherence exRun 3 0 exWorld).1 5 exWorld rfl,
   (C2_cache_coherence exRun 0 0 exWorld).2 1 exWorld rfl,
   ⟨_, output_get_value_miss exRun 3 1 exWorld 0 rfl (by norm_num [exWorld, exGraph, exOutput]),
    by
      simpa [exWorld, exGraph, exOutput] using
        (C2_cache_coherence exRun 3 1 exWorld).1 42 _
          (output_get_value_miss exRun 3 1 exWorld 0 rfl
            (by norm_num [exWorld, exGraph, exOutput]))⟩⟩

/-- C3: `NodeInput::get_value` at a time `t` different from the cached time
returns what `get_value(t)` of the connected output returns when the port has
an edge, and otherwise the value of the first keyframe, whatever the number of
keyframes and the keyframing flag; in both cases the cache becomes
`(t, result)`. -/
theorem C3_input_get_value (Run : Nat → Nat → rational → Graph V → V × Graph V)
    (self : Nat) (t : rational) (w : World V)
    (hmiss : (w.graph.inputs self).time_ ≠ t) :
    (∀ o, NodeInput.get_connected_output self w.graph = some o →
      ∀ v w1, NodeOutput.get_value Run o t w = some (v, w1) →
        ∃ w2, NodeInput.get_value Run self t w = some (v, w2) ∧
          (w2.graph.inputs self).time_ = t ∧ (w2.graph.inputs self).value_ = v) ∧
    (NodeInput.get_connected_output self w.graph = none →
      ∀ k ks, (w.graph.inputs self).keyframes_ = k :: ks →
        ∃ w2, NodeInput.get_value Run self t w = some (k.value, w2) ∧
          (w2.graph.inputs self).time_ = t ∧ (w2.graph.inputs self).value_ = k.value) := by
  constructor
  · intro o ho v w1 hv
    cases he : (w.graph.inputs self).edges_ with
    | nil => simp [NodeInput.get_connected_output, he] at ho
    | cons e es =>
      simp only [NodeInput.get_connected_output, he, Option.some.injEq] at ho
      subst ho
      obtain ⟨w3, h3, -⟩ := output_get_value_log Run e.output t w.graph w.log
        (w.log ++ [Event.Pull self e.output t]) v w1 hv
      simp [NodeInput.get_value, hmiss, he, h3]
  · intro hnone k ks hk
    cases he : (w.graph.inputs self).edges_ with
    | cons e es => simp [NodeInput.get_connected_output, he] at hnone
    | nil =>
      simp [NodeInput.get_value, hmiss, he, hk]

/-- Witness of C3: the input port `1`, connected to the output port `3`, and
the unconnected port `2` with two keyframes and keyframing on, both with
cached time `0` and asked at time `1`. -/
theorem C3_input_get_value_witness :
    (∃ w2, NodeInput.get_value exRun 1 1 exWorld = some (42, w2) ∧
        (w2.graph.inputs 1).time_ = 1 ∧ (w2.graph.inputs 1).value_ = 42) ∧
    (∃ w2, NodeInput.get_value exRun 2 1 exWorld = some (8, w2) ∧
        (w2.graph.inputs 2).time_ = 1 ∧ (w2.graph.inputs 2).value_ = 8) :=
  ⟨(C3_input_get_value exRun 1 1 exWorld
      (by norm_num [exWorld, exGraph, exInputConnected])).1 3 rfl 42 _
      (output_get_value_miss exRun 3 1 exWorld 0 rfl
        (by norm_num [exWorld, exGraph, exOutput])),
   (C3_input_get_value exRun 2 1 exWorld
      (by norm_num [exWorld, exGraph, exInputKeyframed])).2 rfl _ _ rfl⟩

/-- C4: `NodeInput::set_value(v)` with keyframing disabled overwrites the
value of the first keyframe with `v`, leaves the other keyframes, the
keyframing flag, the edges and every other port unchanged, and emits exactly
one `ValueChanged`, with range `(RATIONAL_MIN, RATIONAL_MAX)`; with keyframing
enabled it changes nothing in the heap and emits no `ValueChanged`. -/
theorem C4_set_value (RATIONAL_MIN RATIONAL_MAX : rational) (self : Nat) (v : V)
    (w : World V) :
    ((w.graph.inputs self).keyframing_ = false →
      ∀ k ks, (w.graph.inputs self).keyframes_ = k :: ks →
        ∃ w2 pre post, NodeInput.set_value RATIONAL_MIN RATIONAL_MAX self v w = some w2 ∧
          (w2.graph.inputs self).keyframes_ = { k with value := v } :: ks ∧
          (w2.graph.inputs self).keyframing_ = false ∧
          (w2.graph.inputs self).edges_ = (w.graph.inputs self).edges_ ∧
          (∀ j, j ≠ self → w2.graph.inputs j = w.graph.inputs j) ∧
          w2.graph.outputs = w.graph.outputs ∧
          w2.log = w.log ++ pre ++ [Event.ValueChanged self RATIONAL_MIN RATIONAL_MAX] ++ post ∧
          valueChangedCount pre = 0 ∧ valueChangedCount post = 0 ∧
          valueChangedCount w2.log = valueChangedCount w.log + 1) ∧
    ((w.graph.inputs self).keyframing_ = true →
      ∃ w2, NodeInput.set_value RATIONAL_MIN RATIONAL_MAX self v w = some w2 ∧
        w2.graph = w.graph ∧ valueChangedCount w2.log = valueChangedCount w.log) := by
  constructor
  · intro hkf k ks hk
    cases hp : (w.graph.inputs self).parent with
    | none =>
      refine ⟨_, [], [],
        set_value_not_keyframing RATIONAL_MIN RATIONAL_MAX self v w k ks hkf hk, ?_⟩
      simp only [hp, mutexEvent, hkf, NodeKeyframe.set_value, valueChangedCount,
        valueChangedCount_append, setInput_inputs_same, setInput_outputs, List.append_nil,
        List.append_assoc, true_and, and_true]
      exact fun j hj => setInput_inputs_other _ _ _ _ hj
    | some n =>
      refine ⟨_, [Event.Lock n], [Event.Unlock n],
        set_value_not_keyframing RATIONAL_MIN RATIONAL_MAX self v w k ks hkf hk, ?_⟩
      simp only [hp, mutexEvent, hkf, NodeKeyframe.set_value, valueChangedCount,
        valueChangedCount_append, setInput_inputs_same, setInput_outputs, List.append_nil,
        List.append_assoc, true_and, and_true]
      exact fun j hj => setInput_inputs_other _ _ _ _ hj
  · intro hkf
    cases hp : (w.graph.inputs self).parent with
    | none => simp [NodeInput.set_value, NodeInput.keyframing, hkf, hp, mutexEvent]
    | some n =>
      simp [NodeInput.set_value, NodeInput.keyframing, hkf, hp, mutexEvent,
        valueChangedCount, valueChangedCount_append]

/-- Witness of C4: `set_value(7)` on the port `0` (keyframing off, parent node
`0`) and on the port `2` (keyframing on). -/
theorem C4_set_value_witness :
    (∃ w2 pre post, NodeInput.set_value (-100) 100 0 7 exWorld = some w2 ∧
        (w2.graph.inputs 0).keyframes_ = [{ time := 0, value := 7, type := Interpolation.hold }] ∧
        (w2.graph.inputs 0).keyframing_ = false ∧
        (w2.graph.inputs 0).edges_ = (exWorld.graph.inputs 0).edges_ ∧
        (∀ j, j ≠ 0 → w2.graph.inputs j = exWorld.graph.inputs j) ∧
        w2.graph.outputs = exWorld.graph.outputs ∧
        w2.log = exWorld.log ++ pre ++ [Event.ValueChanged 0 (-100) 100] ++ post ∧
        valueChangedCount pre = 0 ∧ valueChangedCount post = 0 ∧
        valueChangedCount w2.log = valueChangedCount exWorld.log + 1) ∧
    (∃ w2, NodeInput.set_value (-100) 100 2 7 exWorld = some w2 ∧
        w2.graph = exWorld.graph ∧ valueChangedCount w2.log = valueChangedCount exWorld.log) :=
  ⟨(C4_set_value (-100) 100 0 7 exWorld).1 rfl _ _ rfl,
   (C4_set_value (-100) 100 2 7 exWorld).2 rfl⟩

/-- C5 (the code at the failing input): on the unconnected port `0` with
keyframing off, `get_value(5)` caches `(5, 1)`; `set_value(2)` then overwrites
the first keyframe with `2` but leaves the cache alone, and the following
`get_value(5)` returns the stale `1`, not `2`. -/
theorem C5_set_value_keeps_stale_cache :
    ((NodeInput.get_value exRun 0 5 exWorld).bind fun r1 =>
      (NodeInput.set_value (-100) 100 0 2 r1.2).bind fun w2 =>
        (NodeInput.get_value exRun 0 5 w2).map fun r3 =>
          (r1.1, (w2.graph.inputs 0).keyframes_.map NodeKeyframe.value, r3.1)) =
      some (1, [2], 1) := by
  simp [NodeInput.get_value, NodeInput.set_value, NodeInput.keyframing, mutexEvent,
    NodeKeyframe.set_value, exWorld, exGraph, exInput]

/-- C6: after `CopyValues(source, dest)` the keyframe sequence of `dest`
equals that of `source`, the keyframing flag of `dest` equals that of
`source`, the keyframes and the flag of `source` are unchanged, and a later
`set_value` on `dest` (a port other than `source`) returns when `dest` has a
keyframe and leaves the keyframes of `source` unchanged. -/
theorem C6_copy_values_keyframes (source dest : Nat) (g : Graph V) :
    ((NodeInput.CopyValues source dest g).inputs dest).keyframes_
        = (g.inputs source).keyframes_ ∧
    ((NodeInput.CopyValues source dest g).inputs dest).keyframing_
        = (g.inputs source).keyframing_ ∧
    ((NodeInput.CopyValues source dest g).inputs source).keyframes_
        = (g.inputs source).keyframes_ ∧
    ((NodeInput.CopyValues source dest g).inputs source).keyframing_
        = (g.inputs source).keyframing_ ∧
    (source ≠ dest → ∀ (lo hi : rational) (v : V) (l : List Event),
      ((g.inputs source).keyframes_ ≠ [] →
        (NodeInput.set_value lo hi dest v
          { graph := NodeInput.CopyValues source dest g, log := l }).isSome = true) ∧
      ∀ w3, NodeInput.set_value lo hi dest v
          { graph := NodeInput.CopyValues source dest g, log := l } = some w3 →
        (w3.graph.inputs source).keyframes_ = (g.inputs source).keyframes_) := by
  have hcopy : ((NodeInput.CopyValues source dest g).inputs dest).keyframes_
        = (g.inputs source).keyframes_ ∧
      ((NodeInput.CopyValues source dest g).inputs dest).keyframing_
        = (g.inputs source).keyframing_ ∧
      ((NodeInput.CopyValues source dest g).inputs source).keyframes_
        = (g.inputs source).keyframes_ ∧
      ((NodeInput.CopyValues source dest g).inputs source).keyframing_
        = (g.inputs source).keyframing_ := by
    by_cases hsd : source = dest
    · subst hsd
      cases he : (g.inputs source).edges_ <;>
        simp [NodeInput.CopyValues, NodeInput.set_keyframing, NodeInput.keyframing,
          NodeInput.get_connected_output, ConnectEdge, he]
    · cases he : (g.inputs source).edges_ <;>
        simp [NodeInput.CopyValues, NodeInput.set_keyframing, NodeInput.keyframing,
          NodeInput.get_connected_output, ConnectEdge, he, setInput_inputs_other, hsd]
  refine ⟨hcopy.1, hcopy.2.1, hcopy.2.2.1, hcopy.2.2.2, ?_⟩
  intro hsd lo hi v l
  constructor
  · intro hne
    by_cases hkf : ((NodeInput.CopyValues source dest g).inputs dest).keyframing_ = true
    · simp [NodeInput.set_value, NodeInput.keyframing, hkf]
    · cases hk : ((NodeInput.CopyValues source dest g).inputs dest).keyframes_ with
      | nil => exact absurd (hcopy.1.symm.trans hk) hne
      | cons k ks => simp [NodeInput.set_value, NodeInput.keyframing, hkf, hk]
  · intro w3 h3
    by_cases hkf : ((NodeInput.CopyValues source dest g).inputs dest).keyframing_ = true
    · simp only [NodeInput.set_value, NodeInput.keyframing, hkf, ite_true,
        Option.some.injEq] at h3
      subst h3
      exact hcopy.2.2.1
    · cases hk : ((NodeInput.CopyValues source dest g).inputs dest).keyframes_ with
      | nil => simp [NodeInput.set_value, NodeInput.keyframing, hkf, hk] at h3
      | cons k ks =>
        rw [set_value_not_keyframing lo hi dest v _ k ks (by simpa using hkf) hk] at h3
        simp only [Option.some.injEq] at h3
        subst h3
        simp only [setInput_inputs_other _ _ _ _ hsd]
        exact hcopy.2.2.1

/-- Witness of C6: copying the connected, keyframed port `1` to the port `0`,
then `set_value(7)` on the port `0`. -/
theorem C6_copy_values_keyframes_witness :
    (0 : Nat) ≠ 1 ∧
    ((NodeInput.CopyValues 1 0 exGraph).inputs 0).keyframes_ = (exGraph.inputs 1).keyframes_ ∧
    (NodeInput.set_value (-100) 100 0 7
        { graph := NodeInput.CopyValues 1 0 exGraph, log := [] }).isSome = true ∧
    ∀ w3, NodeInput.set_value (-100) 100 0 7
        { graph := NodeInput.CopyValues 1 0 exGraph, log := [] } = some w3 →
      (w3.graph.inputs 1).keyframes_ = (exGraph.inputs 1).keyframes_ :=
  ⟨by decide, (C6_copy_values_keyframes 1 0 exGraph).1,
   ((C6_copy_values_keyframes 1 0 exGraph).2.2.2.2 (by decide) (-100) 100 7 []).1
     (by simp [exGraph, exInputConnected]),
   ((C6_copy_values_keyframes 1 0 exGraph).2.2.2.2 (by decide) (-100) 100 7 []).2⟩

/-- C7 (as stated, refuted): the source port `0` has no connection and the
dest port `1` is connected to the output port `3`; after `CopyValues` the dest
is still connected to `3` while the source has no connection. -/
theorem C7_copy_values_connection_counterexample :
    NodeInput.get_connected_output 1 (NodeInput.CopyValues 0 1 exGraph) = some 3 ∧
    NodeInput.get_connected_output 0 (NodeInput.CopyValues 0 1 exGraph) = none ∧
    NodeInput.get_connected_output 1 (NodeInput.CopyValues 0 1 exGraph) ≠
      NodeInput.get_connected_output 0 (NodeInput.CopyValues 0 1 exGraph) := by
  simp [NodeInput.CopyValues, NodeInput.get_connected_output, NodeInput.set_keyframing,
    NodeInput.keyframing, Graph.setInput, Function.update, exGraph, exInput, exInputConnected]

/-- C7 (amended): when `source` has a connection, after
`CopyValues(source, dest)` the connected output of `dest` is the connected
output of `source`; when `source` has no connection, the edges of `dest` are
left as they were. -/
theorem C7_copy_values_connection (source dest : Nat) (g : Graph V) :
    (∀ o, NodeInput.get_connected_output source g = some o →
      NodeInput.get_connected_output dest (NodeInput.CopyValues source dest g) = some o ∧
      NodeInput.get_connected_output source (NodeInput.CopyValues source dest g) = some o) ∧
    (NodeInput.get_connected_output source g = none →
      ((NodeInput.CopyValues source dest g).inputs dest).edges_ = (g.inputs dest).edges_) := by
  constructor
  · intro o ho
    cases he : (g.inputs source).edges_ with
    | nil => simp [NodeInput.get_connected_output, he] at ho
    | cons e es =>
      simp only [NodeInput.get_connected_output, he, Option.some.injEq] at ho
      by_cases hsd : source = dest
      · subst hsd
        simp [NodeInput.CopyValues, NodeInput.set_keyframing, NodeInput.keyframing,
          NodeInput.get_connected_output, ConnectEdge, he, ho]
      · simp [NodeInput.CopyValues, NodeInput.set_keyframing, NodeInput.keyframing,
          NodeInput.get_connected_output, ConnectEdge, he, ho, setInput_inputs_other, hsd]
  · intro hnone
    cases he : (g.inputs source).edges_ with
    | cons e es => simp [NodeInput.get_connected_output, he] at hnone
    | nil =>
      by_cases hsd : source = dest
      · subst hsd
        simp [NodeInput.CopyValues, NodeInput.set_keyframing, NodeInput.keyframing,
          NodeInput.get_connected_output, he]
      · simp [NodeInput.CopyValues, NodeInput.set_keyframing, NodeInput.keyframing,
          NodeInput.get_connected_output, he, setInput_inputs_other, hsd]

/-- Witness of C7: copying the connected port `1` to the port `0`, and the
unconnected port `0` to the port `1`. -/
theorem C7_copy_values_connection_witness :
    (NodeInput.get_connected_output 0 (NodeInput.CopyValues 1 0 exGraph) = some 3 ∧
      NodeInput.get_connected_output 1 (NodeInput.CopyValues 1 0 exGraph) = some 3) ∧
    ((NodeInput.CopyValues 0 1 exGraph).inputs 1).edges_ = (exGraph.inputs 1).edges_ :=
  ⟨(C7_copy_values_connection 1 0 exGraph).1 3 rfl,
   (C7_copy_values_connection 0 1 exGraph).2 rfl⟩

end PortTheorems

/-! ## Theorems on the transition tool -/

/-- The outcome of `GetBlocksAtCoord`, case by case: either it fails and
leaves the output parameters alone, or the track exists and is unlocked, the
block at the cursor is a clip, and the output parameters are those of the
side the cursor is on, which bears no transition. -/
theorem GetBlocksAtCoord_cases (tl : Timeline) (coord : TimelineCoordinate)
    (res : BlocksAtCoord) :
    ((GetBlocksAtCoord tl coord res) = (false, res) ∧
      (tl.GetTrackFromReference coord.track = none ∨
        ∃ t, tl.GetTrackFromReference coord.track = some t ∧
          (t.IsLocked = true ∨ isClipBlock tl (t.BlockAtTime coord.frame) = false ∨
            ∃ b, t.BlockAtTime coord.frame = some b ∧
              (if coord.frame < (tl.blocks b).in_ + (tl.blocks b).length / 2
                then (tl.blocks b).in_transition.isSome
                else (tl.blocks b).out_transition.isSome) = true))) ∨
    (∃ t b, tl.GetTrackFromReference coord.track = some t ∧ t.IsLocked = false ∧
      t.BlockAtTime coord.frame = some b ∧ (tl.blocks b).is_clip = true ∧
      ((coord.frame < (tl.blocks b).in_ + (tl.blocks b).length / 2 ∧
          (tl.blocks b).in_transition = none ∧
          GetBlocksAtCoord tl coord res =
            (true, { primary := some b,
                     secondary :=
                       if coord.frame < (tl.blocks b).in_ + (tl.blocks b).length / 10
                           && isClipBlock tl (tl.blocks b).previous
                         then (tl.blocks b).previous else none,
                     trim_mode := MovementMode.kTrimIn,
                     start_point := (tl.blocks b).in_ })) ∨
        (¬ coord.frame < (tl.blocks b).in_ + (tl.blocks b).length / 2 ∧
          (tl.blocks b).out_transition = none ∧
          GetBlocksAtCoord tl coord res =
            (true, { primary := some b,
                     secondary :=
                       if coord.frame > (tl.blocks b).out - (tl.blocks b).length / 10
                           && isClipBlock tl (tl.blocks b).next
                         then (tl.blocks b).next else none,
                     trim_mode := MovementMode.kTrimOut,
                     start_point := (tl.blocks b).out })))) := by
  cases hT : tl.GetTrackFromReference coord.track with
  | none => exact Or.inl ⟨by simp [GetBlocksAtCoord, hT], Or.inl rfl⟩
  | some t =>
    cases hL : t.IsLocked with
    | true => exact Or.inl ⟨by simp [GetBlocksAtCoord, hT, hL], Or.inr ⟨t, rfl, Or.inl hL⟩⟩
    | false =>
      cases hB : t.BlockAtTime coord.frame with
      | none =>
        exact Or.inl ⟨by simp [GetBlocksAtCoord, hT, hL, hB],
          Or.inr ⟨t, rfl, Or.inr (Or.inl (by simp [isClipBlock, hB]))⟩⟩
      | some b =>
        cases hC : (tl.blocks b).is_clip with
        | false =>
          exact Or.inl ⟨by simp [GetBlocksAtCoord, hT, hL, hB, hC],
            Or.inr ⟨t, rfl, Or.inr (Or.inl (by simp [isClipBlock, hB, hC]))⟩⟩
        | true =>
          by_cases hS : coord.frame < (tl.blocks b).in_ + (tl.blocks b).length / 2
          · cases hI : (tl.blocks b).in_transition with
            | some x =>
              exact Or.inl ⟨by simp [GetBlocksAtCoord, hT, hL, hB, hC, hS, hI],
                Or.inr ⟨t, rfl, Or.inr (Or.inr ⟨b, hB, by simp [hS, hI]⟩)⟩⟩
            | none =>
              exact Or.inr ⟨t, b, rfl, hL, hB, hC, Or.inl ⟨hS, hI,
                by simp [GetBlocksAtCoord, hT, hL, hB, hC, hS, hI]⟩⟩
          · cases hO : (tl.blocks b).out_transition with
            | some x =>
              exact Or.inl ⟨by simp [GetBlocksAtCoord, hT, hL, hB, hC, hS, hO],
                Or.inr ⟨t, rfl, Or.inr (Or.inr ⟨b, hB, by simp [hS, hO]⟩)⟩⟩
            | none =>
              exact Or.inr ⟨t, b, rfl, hL, hB, hC, Or.inr ⟨hS, hO,
                by simp [GetBlocksAtCoord, hT, hL, hB, hC, hS, hO]⟩⟩

/-- C8: `GetBlocksAtCoord` returns true if and only if the track exists, the
track is not locked, the block at the cursor frame is a clip, and the side of
that clip selected by the cursor (the in side when `cursor < in + length / 2`,
the out side otherwise) bears no transition; when it returns false it writes
none of its four output parameters. -/
theorem C8_GetBlocksAtCoord_fails_exactly (tl : Timeline) (coord : TimelineCoordinate)
    (res : BlocksAtCoord) :
    ((GetBlocksAtCoord tl coord res).1 = true ↔
      ∃ t b, tl.GetTrackFromReference coord.track = some t ∧ t.IsLocked = false ∧
        t.BlockAtTime coord.frame = some b ∧ (tl.blocks b).is_clip = true ∧
        (if coord.frame < (tl.blocks b).in_ + (tl.blocks b).length / 2
          then (tl.blocks b).in_transition
          else (tl.blocks b).out_transition) = none) ∧
    ((GetBlocksAtCoord tl coord res).1 = false → (GetBlocksAtCoord tl coord res).2 = res) := by
  refine ⟨⟨fun h => ?_, ?_⟩, fun h => ?_⟩
  · rcases GetBlocksAtCoord_cases tl coord res with ⟨hf, -⟩ | ⟨t, b, hT, hL, hB, hC, hside⟩
    · rw [hf] at h
      exact absurd h Bool.false_ne_true
    · refine ⟨t, b, hT, hL, hB, hC, ?_⟩
      rcases hside with ⟨hS, hI, -⟩ | ⟨hS, hO, -⟩
      · simp [hS, hI]
      · simp [hS, hO]
  · rintro ⟨t, b, hT, hL, hB, hC, hside⟩
    by_cases hS : coord.frame < (tl.blocks b).in_ + (tl.blocks b).length / 2
    · simp only [hS, ite_true] at hside
      simp [GetBlocksAtCoord, hT, hL, hB, hC, hS, hside]
    · simp only [hS, ite_false] at hside
      simp [GetBlocksAtCoord, hT, hL, hB, hC, hS, hside]
  · rcases GetBlocksAtCoord_cases tl coord res with ⟨hf, -⟩ | ⟨t, b, -, -, -, -, hside⟩
    · rw [hf]
    · rcases hside with ⟨-, -, hr⟩ | ⟨-, -, hr⟩ <;>
      · rw [hr] at h
        exact absurd h.symm Bool.false_ne_true

/-- Witness of C8: the cursor at frame `3` succeeds on the unlocked track `0`
(the in side of `exClipA`), and fails on the locked track `1`, leaving the
output parameters alone. -/
theorem C8_GetBlocksAtCoord_fails_exactly_witness :
    (GetBlocksAtCoord exTimeline { frame := 3, track := { type := 0, index := 0 } } exRes).1
      = true ∧
    (GetBlocksAtCoord exTimeline { frame := 3, track := { type := 0, index := 1 } } exRes).2
      = exRes :=
  ⟨(C8_GetBlocksAtCoord_fails_exactly exTimeline
      { frame := 3, track := { type := 0, index := 0 } } exRes).1.mpr
      ⟨exTrack, 1, rfl, rfl, by norm_num [exTrack], rfl,
        by norm_num [exTimeline, exClipA]⟩,
   (C8_GetBlocksAtCoord_fails_exactly exTimeline
      { frame := 3, track := { type := 0, index := 1 } } exRes).2
      (by simp [GetBlocksAtCoord, exTimeline, exLockedTrack])⟩

/-- C9: a `MousePress` on an absent or locked track, on a position with no
clip, or on a clip side that already bears a transition leaves the whole tool
state as it was: no ghost is created, no command is pushed, and ghost, dual
flag, snap points and drag-start frame are unchanged. -/
theorem C9_rejected_press_changes_nothing (tl : Timeline) (event : TimelineViewMouseEvent)
    (uninit : BlocksAtCoord) (s : ToolState)
    (h : tl.GetTrackFromReference event.GetCoordinates.track = none ∨
      ∃ t, tl.GetTrackFromReference event.GetCoordinates.track = some t ∧
        (t.IsLocked = true ∨
          isClipBlock tl (t.BlockAtTime event.GetCoordinates.frame) = false ∨
          ∃ b, t.BlockAtTime event.GetCoordinates.frame = some b ∧
            (if event.GetCoordinates.frame < (tl.blocks b).in_ + (tl.blocks b).length / 2
              then (tl.blocks b).in_transition.isSome
              else (tl.blocks b).out_transition.isSome) = true)) :
    MousePress tl event uninit s = s := by
  have hfalse : (GetBlocksAtCoord tl event.GetCoordinates uninit).1 = false := by
    rcases GetBlocksAtCoord_cases tl event.GetCoordinates uninit with
      ⟨hf, -⟩ | ⟨t, b, hT, hL, hB, hC, hside⟩
    · rw [hf]
    · exfalso
      rcases h with hnone | ⟨t2, hT2, hrej⟩
      · rw [hT] at hnone
        exact absurd hnone (by simp)
      · rw [hT] at hT2
        simp only [Option.some.injEq] at hT2
        subst hT2
        rcases hrej with hlocked | hnoclip | ⟨b2, hB2, hside2⟩
        · rw [hL] at hlocked
          exact absurd hlocked (by decide)
        · simp [isClipBlock, hB, hC] at hnoclip
        · rw [hB] at hB2
          simp only [Option.some.injEq] at hB2
          subst hB2
          rcases hside with ⟨hS, hI, -⟩ | ⟨hS, hO, -⟩
          · simp [hS, hI] at hside2
          · simp [hS, hO] at hside2
  simp [MousePress, hfalse]

/-- Witness of C9: presses at frame `3` on the locked track `1`, at frame `25`
on the track `0` (a block that is no clip), and at frame `12` on the track `0`
(the in side of `exClipB`, which bears a transition), with a ghost-free tool. -/
theorem C9_rejected_press_changes_nothing_witness :
    MousePress exTimeline (exEvent 3 1) exRes exIdle = exIdle ∧
    MousePress exTimeline (exEvent 25 0) exRes exIdle = exIdle ∧
    MousePress exTimeline (exEvent 12 0) exRes exIdle = exIdle :=
  ⟨C9_rejected_press_changes_nothing exTimeline (exEvent 3 1) exRes exIdle
      (Or.inr ⟨exLockedTrack, rfl, Or.inl rfl⟩),
   C9_rejected_press_changes_nothing exTimeline (exEvent 25 0) exRes exIdle
      (Or.inr ⟨exTrack, rfl, Or.inr (Or.inl
        (by norm_num [isClipBlock, exEvent, exTrack, exTimeline, exGap]))⟩),
   C9_rejected_press_changes_nothing exTimeline (exEvent 12 0) exRes exIdle
      (Or.inr ⟨exTrack, rfl, Or.inr (Or.inr
        ⟨2, by norm_num [exEvent, exTrack],
          by norm_num [exEvent, exTimeline, exClipB]⟩)⟩)⟩

/-- C10: whenever `GetBlocksAtCoord` succeeds, the primary block is the clip
at the cursor frame; if the cursor frame is left of the midpoint of the clip
(`cursor < in + length / 2`) the mode is trim-in and the start frame is the in
point of the clip, otherwise the mode is trim-out and the start frame is the
out point of the clip. -/
theorem C10_side_resolution (tl : Timeline) (coord : TimelineCoordinate) (res : BlocksAtCoord)
    (h : (GetBlocksAtCoord tl coord res).1 = true) :
    ∃ t b, tl.GetTrackFromReference coord.track = some t ∧
      t.BlockAtTime coord.frame = some b ∧ (tl.blocks b).is_clip = true ∧
      (GetBlocksAtCoord tl coord res).2.primary = some b ∧
      (coord.frame < (tl.blocks b).in_ + (tl.blocks b).length / 2 →
        (GetBlocksAtCoord tl coord res).2.trim_mode = MovementMode.kTrimIn ∧
        (GetBlocksAtCoord tl coord res).2.start_point = (tl.blocks b).in_) ∧
      (¬ coord.frame < (tl.blocks b).in_ + (tl.blocks b).length / 2 →
        (GetBlocksAtCoord tl coord res).2.trim_mode = MovementMode.kTrimOut ∧
        (GetBlocksAtCoord tl coord res).2.start_point = (tl.blocks b).out) := by
  rcases GetBlocksAtCoord_cases tl coord res with ⟨hf, -⟩ | ⟨t, b, hT, -, hB, hC, hside⟩
  · rw [hf] at h
    exact absurd h Bool.false_ne_true
  · refine ⟨t, b, hT, hB, hC, ?_⟩
    rcases hside with ⟨hS, -, hr⟩ | ⟨hS, -, hr⟩
    · rw [hr]
      exact ⟨rfl, fun _ => ⟨rfl, rfl⟩, fun hn => absurd hS hn⟩
    · rw [hr]
      exact ⟨rfl, fun hn => absurd hn hS, fun _ => ⟨rfl, rfl⟩⟩

/-- Witness of C10: the cursor at frame `17` on the track `0` is right of the
midpoint of `exClipB`, whose out side bears no transition. -/
theorem C10_side_resolution_witness :
    (GetBlocksAtCoord exTimeline { frame := 17, track := { type := 0, index := 0 } } exRes).1
      = true ∧
    ∃ t b, exTimeline.GetTrackFromReference { type := 0, index := 0 } = some t ∧
      t.BlockAtTime 17 = some b ∧ (exTimeline.blocks b).is_clip = true ∧
      (GetBlocksAtCoord exTimeline
        { frame := 17, track := { type := 0, index := 0 } } exRes).2.primary = some b ∧
      ((17 : rational) < (exTimeline.blocks b).in_ + (exTimeline.blocks b).length / 2 →
        (GetBlocksAtCoord exTimeline
          { frame := 17, track := { type := 0, index := 0 } } exRes).2.trim_mode
            = MovementMode.kTrimIn ∧
        (GetBlocksAtCoord exTimeline
          { frame := 17, track := { type := 0, index := 0 } } exRes).2.start_point
            = (exTimeline.blocks b).in_) ∧
      (¬ (17 : rational) < (exTimeline.blocks b).in_ + (exTimeline.blocks b).length / 2 →
        (GetBlocksAtCoord exTimeline
          { frame := 17, track := { type := 0, index := 0 } } exRes).2.trim_mode
            = MovementMode.kTrimOut ∧
        (GetBlocksAtCoord exTimeline
          { frame := 17, track := { type := 0, index := 0 } } exRes).2.start_point
            = (exTimeline.blocks b).out) :=
  ⟨by norm_num [GetBlocksAtCoord, exTimeline, exTrack, exClipB],
   C10_side_resolution exTimeline { frame := 17, track := { type := 0, index := 0 } } exRes
     (by norm_num [GetBlocksAtCoord, exTimeline, exTrack, exClipB])⟩

/-- A block pointer that points to a clip is not null. -/
theorem isClipBlock_isSome (tl : Timeline) (p : Option Nat) (h : isClipBlock tl p = true) :
    p.isSome = true := by
  cases p with
  | none => simp [isClipBlock] at h
  | some b => rfl

/-- C11: whenever `GetBlocksAtCoord` succeeds, the secondary block is present
if and only if either the mode is trim-in, `cursor < in + length / 10` and the
predecessor of the clip is a clip, or the mode is trim-out,
`cursor > out - length / 10` and the successor of the clip is a clip; when
present it is that predecessor, respectively that successor. -/
theorem C11_dual_detection (tl : Timeline) (coord : TimelineCoordinate) (res : BlocksAtCoord)
    (h : (GetBlocksAtCoord tl coord res).1 = true) :
    ∃ t b, tl.GetTrackFromReference coord.track = some t ∧
      t.BlockAtTime coord.frame = some b ∧
      (((GetBlocksAtCoord tl coord res).2.secondary.isSome = true ↔
        ((GetBlocksAtCoord tl coord res).2.trim_mode = MovementMode.kTrimIn ∧
          coord.frame < (tl.blocks b).in_ + (tl.blocks b).length / 10 ∧
          isClipBlock tl (tl.blocks b).previous = true) ∨
        ((GetBlocksAtCoord tl coord res).2.trim_mode = MovementMode.kTrimOut ∧
          coord.frame > (tl.blocks b).out - (tl.blocks b).length / 10 ∧
          isClipBlock tl (tl.blocks b).next = true))) ∧
      ((GetBlocksAtCoord tl coord res).2.secondary.isSome = true →
        ((GetBlocksAtCoord tl coord res).2.trim_mode = MovementMode.kTrimIn →
          (GetBlocksAtCoord tl coord res).2.secondary = (tl.blocks b).previous) ∧
        ((GetBlocksAtCoord tl coord res).2.trim_mode = MovementMode.kTrimOut →
          (GetBlocksAtCoord tl coord res).2.secondary = (tl.blocks b).next)) := by
  rcases GetBlocksAtCoord_cases tl coord res with ⟨hf, -⟩ | ⟨t, b, hT, -, hB, -, hside⟩
  · rw [hf] at h
    exact absurd h Bool.false_ne_true
  · refine ⟨t, b, hT, hB, ?_⟩
    rcases hside with ⟨-, -, hr⟩ | ⟨-, -, hr⟩
    · rw [hr]
      by_cases hc : coord.frame < (tl.blocks b).in_ + (tl.blocks b).length / 10
      · by_cases hp : isClipBlock tl (tl.blocks b).previous = true
        · simp [hc, hp, isClipBlock_isSome tl _ hp]
        · simp [hc, hp]
      · simp [hc]
    · rw [hr]
      by_cases hc : coord.frame > (tl.blocks b).out - (tl.blocks b).length / 10
      · by_cases hp : isClipBlock tl (tl.blocks b).next = true
        · simp [hc, hp, isClipBlock_isSome tl _ hp]
        · simp [hc, hp]
      · simp [hc]

/-- The state after a press for which `GetBlocksAtCoord` succeeds. -/
theorem MousePress_of_success (tl : Timeline) (event : TimelineViewMouseEvent)
    (uninit : BlocksAtCoord) (s : ToolState)
    (hok : (GetBlocksAtCoord tl event.GetCoordinates uninit).1 = true) :
    MousePress tl event uninit s =
      { s with
        ghost_ := some (pressGhost event (GetBlocksAtCoord tl event.GetCoordinates uninit).2)
        dual_transition_ := (GetBlocksAtCoord tl event.GetCoordinates uninit).2.secondary.isSome
        ghosts := s.ghosts ++ [pressGhost event (GetBlocksAtCoord tl event.GetCoordinates uninit).2]
        snap_points_ := s.snap_points_ ++
          [(GetBlocksAtCoord tl event.GetCoordinates uninit).2.start_point]
        drag_start_point_ := event.GetFrame } := by
  cases hsec : (GetBlocksAtCoord tl event.GetCoordinates uninit).2.secondary with
  | none => simp [MousePress, pressGhost, hok, hsec]
  | some x => simp [MousePress, pressGhost, hok, hsec]

/-- Witness of C11: at `exCoordDual` the call succeeds in trim-out mode and
the secondary block is the successor `2`. -/
theorem C11_dual_detection_witness :
    (GetBlocksAtCoord exTimeline exCoordDual exRes).1 = true ∧
    ∃ t b, exTimeline.GetTrackFromReference exCoordDual.track = some t ∧
      t.BlockAtTime exCoordDual.frame = some b ∧
      (((GetBlocksAtCoord exTimeline exCoordDual exRes).2.secondary.isSome = true ↔
        ((GetBlocksAtCoord exTimeline exCoordDual exRes).2.trim_mode = MovementMode.kTrimIn ∧
          exCoordDual.frame < (exTimeline.blocks b).in_ + (exTimeline.blocks b).length / 10 ∧
          isClipBlock exTimeline (exTimeline.blocks b).previous = true) ∨
        ((GetBlocksAtCoord exTimeline exCoordDual exRes).2.trim_mode = MovementMode.kTrimOut ∧
          exCoordDual.frame > (exTimeline.blocks b).out - (exTimeline.blocks b).length / 10 ∧
          isClipBlock exTimeline (exTimeline.blocks b).next = true))) ∧
      ((GetBlocksAtCoord exTimeline exCoordDual exRes).2.secondary.isSome = true →
        ((GetBlocksAtCoord exTimeline exCoordDual exRes).2.trim_mode = MovementMode.kTrimIn →
          (GetBlocksAtCoord exTimeline exCoordDual exRes).2.secondary
            = (exTimeline.blocks b).previous) ∧
        ((GetBlocksAtCoord exTimeline exCoordDual exRes).2.trim_mode = MovementMode.kTrimOut →
          (GetBlocksAtCoord exTimeline exCoordDual exRes).2.secondary
            = (exTimeline.blocks b).next)) :=
  ⟨by norm_num [GetBlocksAtCoord, exCoordDual, exTimeline, exTrack, exClipA],
   C11_dual_detection exTimeline exCoordDual exRes
     (by norm_num [GetBlocksAtCoord, exCoordDual, exTimeline, exTrack, exClipA])⟩

/-- C12: a `MousePress` from a state without snap points (the idle state; a
ghost left in the state is replaced) for which `GetBlocksAtCoord` succeeds
creates a ghost with `in = out =` the resolved start frame, the
resolved mode, the primary clip as attached block and the secondary clip as
reference block exactly when one was resolved; the dual flag is 'secondary
present', the drag start is the frame of the event, and the snap points are
exactly the resolved start frame. -/
theorem C12_successful_press (tl : Timeline) (event : TimelineViewMouseEvent)
    (uninit : BlocksAtCoord) (s : ToolState) (hsnap : s.snap_points_ = [])
    (hok : (GetBlocksAtCoord tl event.GetCoordinates uninit).1 = true) :
    ∃ g, (MousePress tl event uninit s).ghost_ = some g ∧
      g.in_ = (GetBlocksAtCoord tl event.GetCoordinates uninit).2.start_point ∧
      g.out = (GetBlocksAtCoord tl event.GetCoordinates uninit).2.start_point ∧
      g.mode = (GetBlocksAtCoord tl event.GetCoordinates uninit).2.trim_mode ∧
      g.kAttachedBlock = (GetBlocksAtCoord tl event.GetCoordinates uninit).2.primary ∧
      g.kReferenceBlock = (GetBlocksAtCoord tl event.GetCoordinates uninit).2.secondary ∧
      g.track = event.GetTrack ∧
      (MousePress tl event uninit s).ghosts = s.ghosts ++ [g] ∧
      (MousePress tl event uninit s).dual_transition_ =
        (GetBlocksAtCoord tl event.GetCoordinates uninit).2.secondary.isSome ∧
      (MousePress tl event uninit s).drag_start_point_ = event.GetFrame ∧
      (MousePress tl event uninit s).snap_points_ =
        [(GetBlocksAtCoord tl event.GetCoordinates uninit).2.start_point] ∧
      (MousePress tl event uninit s).undo_stack = s.undo_stack := by
  rw [MousePress_of_success tl event uninit s hok]
  exact ⟨_, rfl, rfl, rfl, rfl, rfl, rfl, rfl, rfl, rfl, rfl, by simp [hsnap], rfl⟩

/-- Witness of C12: a press at frame `19/2` on the track `0` with the idle
tool: the ghost sits at frame `10` in trim-out mode, attached to the block `1`
with the block `2` as reference. -/
theorem C12_successful_press_witness :
    (GetBlocksAtCoord exTimeline (exEvent (19 / 2) 0).GetCoordinates exRes).1 = true ∧
    (∃ g, (MousePress exTimeline (exEvent (19 / 2) 0) exRes exIdle).ghost_ = some g ∧
      g.in_ = 10 ∧ g.out = 10 ∧ g.mode = MovementMode.kTrimOut ∧
      g.kAttachedBlock = some 1 ∧ g.kReferenceBlock = some 2) ∧
    (MousePress exTimeline (exEvent (19 / 2) 0) exRes exIdle).dual_transition_ = true ∧
    (MousePress exTimeline (exEvent (19 / 2) 0) exRes exIdle).drag_start_point_ = 19 / 2 ∧
    (MousePress exTimeline (exEvent (19 / 2) 0) exRes exIdle).snap_points_ = [10] := by
  have hok : (GetBlocksAtCoord exTimeline (exEvent (19 / 2) 0).GetCoordinates exRes).1 = true := by
    norm_num [GetBlocksAtCoord, exEvent, exTimeline, exTrack, exClipA]
  have hres : (GetBlocksAtCoord exTimeline (exEvent (19 / 2) 0).GetCoordinates exRes).2 =
      { primary := some 1, secondary := some 2, trim_mode := MovementMode.kTrimOut,
        start_point := 10 } := by
    norm_num [GetBlocksAtCoord, exEvent, exTimeline, exTrack, exClipA, exClipB, isClipBlock]
  obtain ⟨g, hg, h1, h2, h3, h4, h5, -, -, h8, h9, h10, -⟩ :=
    C12_successful_press exTimeline (exEvent (19 / 2) 0) exRes exIdle rfl hok
  rw [hres] at h1 h2 h3 h4 h5 h8 h10
  exact ⟨hok, ⟨g, hg, h1, h2, h3, h4, h5⟩, h8, h9, h10⟩

/-- The state after a release with a ghost of nonzero adjusted length. -/
theorem MouseRelease_nonzero (env : ToolEnv) (s : ToolState) (g : Ghost)
    (hg : s.ghost_ = some g) (hlen : env.GetAdjustedLength g ≠ 0) :
    MouseRelease env s =
      some { s with
             undo_stack := s.undo_stack ++ [releaseCommands env s.dual_transition_ g]
             overlay := (none, none)
             ghosts := []
             snap_points_ := []
             ghost_ := none } := by
  simp [MouseRelease, hg, hlen]

/-- The state after a release with a ghost of zero adjusted length. -/
theorem MouseRelease_zero (env : ToolEnv) (s : ToolState) (g : Ghost)
    (hg : s.ghost_ = some g) (hlen : env.GetAdjustedLength g = 0) :
    MouseRelease env s = some { s with ghosts := [], snap_points_ := [], ghost_ := none } := by
  simp [MouseRelease, hg, hlen]

/-- A move resizes the ghost and leaves its mode, its blocks, the dual flag
and the undo stack alone. -/
theorem MouseMove_of_ghost (env : ToolEnv) (event : TimelineViewMouseEvent) (s : ToolState)
    (g : Ghost) (hg : s.ghost_ = some g) :
    ∃ g2, (MouseMove env event s).ghost_ = some g2 ∧ g2.mode = g.mode ∧
      g2.kAttachedBlock = g.kAttachedBlock ∧ g2.kReferenceBlock = g.kReferenceBlock ∧
      g2.track = g.track ∧
      (MouseMove env event s).dual_transition_ = s.dual_transition_ ∧
      (MouseMove env event s).undo_stack = s.undo_stack := by
  simp [MouseMove, hg]

/-- C13 (as stated, refuted): a press at frame `3` on `exClipA` (left of the
midpoint `5`, more than the tenth `1` from the start `0`), a move to frame `8`
and a release push one batch, and it holds two position commands, not one. -/
theorem C13_single_side_counterexample :
    (MouseRelease exEnv
        (MouseMove exEnv (exEvent 8 0)
          (MousePress exTimeline (exEvent 3 0) exRes exIdle))).map
      (fun s2 => (s2.undo_stack,
        s2.undo_stack.map fun batch => batch.countP Command.isNodeSetPosition)) =
    some ([[Command.NodeAdd TransitionKind.CrossDissolveTransition 5,
            Command.NodeSetPosition NodeRef.transition 0 0,
            Command.TrackPlaceBlock { type := 0, index := 0 } 0,
            Command.NodeEdgeAdd (some 1) TransitionInput.kInBlockInput,
            Command.NodeSetPosition (NodeRef.block (some 1)) (-1) 0]], [2]) := by
  have hok : (GetBlocksAtCoord exTimeline (exEvent 3 0).GetCoordinates exRes).1 = true := by
    norm_num [GetBlocksAtCoord, exEvent, exTimeline, exTrack, exClipA]
  have hres : (GetBlocksAtCoord exTimeline (exEvent 3 0).GetCoordinates exRes).2 =
      { primary := some 1, secondary := none, trim_mode := MovementMode.kTrimIn,
        start_point := 0 } := by
    norm_num [GetBlocksAtCoord, exEvent, exTimeline, exTrack, exClipA, isClipBlock]
  have hempty : "".isEmpty = true := by decide
  rw [MousePress_of_success exTimeline (exEvent 3 0) exRes exIdle hok, hres]
  norm_num [MouseRelease, MouseMove, releaseCommands, pressGhost, exEnv, exEvent, exIdle,
    Command.isNodeSetPosition, List.countP_cons, hempty]

/-- C13 (amended): a press at a frame left of the midpoint of a clip and more
than one tenth of its length from its start (the in side bearing no
transition), followed by a move and a release with nonzero adjusted ghost
length, pushes one batch holding exactly one add-node command, exactly two
position commands (the transition at `(0, 0)` and the attached clip at
`(-1, 0)`), exactly one track-place command and exactly one edge-add command,
which connects the attached clip to the in-block input. -/
theorem C13_single_side_release (env : ToolEnv) (tl : Timeline)
    (press move : TimelineViewMouseEvent) (uninit : BlocksAtCoord) (s : ToolState)
    (t : Track) (b : Nat)
    (hT : tl.GetTrackFromReference press.GetCoordinates.track = some t)
    (hL : t.IsLocked = false)
    (hB : t.BlockAtTime press.GetCoordinates.frame = some b)
    (hC : (tl.blocks b).is_clip = true)
    (hI : (tl.blocks b).in_transition = none)
    (hmid : press.GetCoordinates.frame < (tl.blocks b).in_ + (tl.blocks b).length / 2)
    (htenth : (tl.blocks b).in_ + (tl.blocks b).length / 10 < press.GetCoordinates.frame)
    (hlen : ∃ g, (MouseMove env move (MousePress tl press uninit s)).ghost_ = some g ∧
      env.GetAdjustedLength g ≠ 0) :
    ∃ s2 batch,
      MouseRelease env (MouseMove env move (MousePress tl press uninit s)) = some s2 ∧
      s2.undo_stack = s.undo_stack ++ [batch] ∧
      batch.countP Command.isNodeAdd = 1 ∧
      batch.countP Command.isNodeSetPosition = 2 ∧
      batch.countP Command.isTrackPlaceBlock = 1 ∧
      batch.countP Command.isNodeEdgeAdd = 1 ∧
      Command.NodeEdgeAdd (some b) TransitionInput.kInBlockInput ∈ batch ∧
      Command.NodeSetPosition NodeRef.transition 0 0 ∈ batch ∧
      Command.NodeSetPosition (NodeRef.block (some b)) (-1) 0 ∈ batch := by
  obtain ⟨g, hg, hne⟩ := hlen
  have hok : (GetBlocksAtCoord tl press.GetCoordinates uninit).1 = true := by
    simp [GetBlocksAtCoord, hT, hL, hB, hC, hmid, hI]
  have hres : (GetBlocksAtCoord tl press.GetCoordinates uninit).2 =
      { primary := some b, secondary := none, trim_mode := MovementMode.kTrimIn,
        start_point := (tl.blocks b).in_ } := by
    simp [GetBlocksAtCoord, hT, hL, hB, hC, hmid, hI, not_lt.mpr htenth.le]
  have hpress := MousePress_of_success tl press uninit s hok
  rw [hres] at hpress
  have hpg : (MousePress tl press uninit s).ghost_ = some (pressGhost press
      { primary := some b, secondary := none, trim_mode := MovementMode.kTrimIn,
        start_point := (tl.blocks b).in_ }) := by
    rw [hpress]
  obtain ⟨g2, hg2, hmode, hatt, -, -, hdual, hundo⟩ :=
    MouseMove_of_ghost env move (MousePress tl press uninit s) _ hpg
  rw [hg] at hg2
  simp only [Option.some.injEq] at hg2
  subst hg2
  have hd : (MouseMove env move (MousePress tl press uninit s)).dual_transition_ = false := by
    rw [hdual, hpress]
    rfl
  have hu : (MouseMove env move (MousePress tl press uninit s)).undo_stack = s.undo_stack := by
    rw [hundo, hpress]
  simp only [pressGhost] at hmode hatt
  refine ⟨_, releaseCommands env false g, MouseRelease_nonzero env _ g hg hne, ?_, ?_⟩
  · simp [hd, hu]
  · simp [releaseCommands, hmode, hatt, List.countP_cons, Command.isNodeAdd,
      Command.isNodeSetPosition, Command.isTrackPlaceBlock, Command.isNodeEdgeAdd]

/-- Witness of C13: the press at frame `3` on `exClipA`, the move to frame `8`
and the release. -/
theorem C13_single_side_release_witness :
    ∃ s2 batch,
      MouseRelease exEnv
        (MouseMove exEnv (exEvent 8 0) (MousePress exTimeline (exEvent 3 0) exRes exIdle))
        = some s2 ∧
      s2.undo_stack = exIdle.undo_stack ++ [batch] ∧
      batch.countP Command.isNodeAdd = 1 ∧
      batch.countP Command.isNodeSetPosition = 2 ∧
      batch.countP Command.isTrackPlaceBlock = 1 ∧
      batch.countP Command.isNodeEdgeAdd = 1 ∧
      Command.NodeEdgeAdd (some 1) TransitionInput.kInBlockInput ∈ batch ∧
      Command.NodeSetPosition NodeRef.transition 0 0 ∈ batch ∧
      Command.NodeSetPosition (NodeRef.block (some 1)) (-1) 0 ∈ batch :=
  C13_single_side_release exEnv exTimeline (exEvent 3 0) (exEvent 8 0) exRes exIdle exTrack 1
    rfl rfl (by norm_num [exEvent, exTrack]) rfl rfl
    (by norm_num [exEvent, exTimeline, exClipA])
    (by norm_num [exEvent, exTimeline, exClipA])
    (by
      have hok : (GetBlocksAtCoord exTimeline (exEvent 3 0).GetCoordinates exRes).1 = true := by
        norm_num [GetBlocksAtCoord, exEvent, exTimeline, exTrack, exClipA]
      rw [MousePress_of_success exTimeline (exEvent 3 0) exRes exIdle hok]
      norm_num [MouseMove, pressGhost, exEnv, exEvent, GetBlocksAtCoord, exTimeline, exTrack,
        exClipA, isClipBlock])

/-- C14: a release with nonzero adjusted ghost length while the dual flag is
set pushes a batch with exactly two edge-add commands; if the ghost mode is
trim-in the reference block is connected to the out-block input and the
attached block to the in-block input, otherwise the attached block is
connected to out-block and the reference block to in-block; the block wired to
out-block is positioned at `(-1, -1/2)` and the block wired to in-block at
`(-1, 1/2)`. -/
theorem C14_dual_wiring (env : ToolEnv) (s : ToolState) (g : Ghost)
    (hg : s.ghost_ = some g) (hdual : s.dual_transition_ = true)
    (hlen : env.GetAdjustedLength g ≠ 0) :
    ∃ s2 batch out_block in_block,
      MouseRelease env s = some s2 ∧ s2.undo_stack = s.undo_stack ++ [batch] ∧
      batch.countP Command.isNodeEdgeAdd = 2 ∧
      (g.mode = MovementMode.kTrimIn →
        out_block = g.kReferenceBlock ∧ in_block = g.kAttachedBlock) ∧
      (g.mode ≠ MovementMode.kTrimIn →
        out_block = g.kAttachedBlock ∧ in_block = g.kReferenceBlock) ∧
      batch.filter Command.isNodeEdgeAdd =
        [Command.NodeEdgeAdd out_block TransitionInput.kOutBlockInput,
         Command.NodeEdgeAdd in_block TransitionInput.kInBlockInput] ∧
      Command.NodeSetPosition (NodeRef.block out_block) (-1) (-1 / 2) ∈ batch ∧
      Command.NodeSetPosition (NodeRef.block in_block) (-1) (1 / 2) ∈ batch := by
  refine ⟨_, releaseCommands env true g,
    if g.mode = MovementMode.kTrimIn then g.kReferenceBlock else g.kAttachedBlock,
    if g.mode = MovementMode.kTrimIn then g.kAttachedBlock else g.kReferenceBlock,
    MouseRelease_nonzero env s g hg hlen, ?_, ?_⟩
  · simp [hdual]
  · by_cases hm : g.mode = MovementMode.kTrimIn <;>
      simp [releaseCommands, hm, List.countP_cons, List.filter_cons, Command.isNodeEdgeAdd]

/-- Witness of C14: the release of `exDragging`, in trim-out mode: the
attached block `1` goes to out-block and the reference block `2` to in-block. -/
theorem C14_dual_wiring_witness :
    ∃ s2 batch out_block in_block,
      MouseRelease exEnv exDragging = some s2 ∧
      s2.undo_stack = exDragging.undo_stack ++ [batch] ∧
      batch.countP Command.isNodeEdgeAdd = 2 ∧
      (MovementMode.kTrimOut = MovementMode.kTrimIn →
        out_block = some 2 ∧ in_block = some 1) ∧
      (MovementMode.kTrimOut ≠ MovementMode.kTrimIn →
        out_block = some 1 ∧ in_block = some 2) ∧
      batch.filter Command.isNodeEdgeAdd =
        [Command.NodeEdgeAdd out_block TransitionInput.kOutBlockInput,
         Command.NodeEdgeAdd in_block TransitionInput.kInBlockInput] ∧
      Command.NodeSetPosition (NodeRef.block out_block) (-1) (-1 / 2) ∈ batch ∧
      Command.NodeSetPosition (NodeRef.block in_block) (-1) (1 / 2) ∈ batch :=
  C14_dual_wiring exEnv exDragging _ rfl rfl (by norm_num [exEnv])

/-- C15: with a ghost present, `MouseRelease` returns with the ghost absent
and the snap points empty; when the adjusted length of the ghost is nonzero
exactly one batch is pushed on the undo stack, and when it is zero nothing is
pushed. -/
theorem C15_release_returns_to_idle (env : ToolEnv) (s : ToolState) (g : Ghost)
    (hg : s.ghost_ = some g) :
    ∃ s2, MouseRelease env s = some s2 ∧ s2.ghost_ = none ∧ s2.snap_points_ = [] ∧
      s2.ghosts = [] ∧
      (env.GetAdjustedLength g ≠ 0 → ∃ batch, s2.undo_stack = s.undo_stack ++ [batch]) ∧
      (env.GetAdjustedLength g = 0 → s2.undo_stack = s.undo_stack) ∧
      (s2.undo_stack ≠ s.undo_stack ↔ env.GetAdjustedLength g ≠ 0) := by
  by_cases hlen : env.GetAdjustedLength g = 0
  · exact ⟨_, MouseRelease_zero env s g hg hlen, rfl, rfl, rfl,
      fun h => absurd hlen h, fun _ => rfl, by simp [hlen]⟩
  · exact ⟨_, MouseRelease_nonzero env s g hg hlen, rfl, rfl, rfl,
      fun _ => ⟨_, rfl⟩, fun h => absurd h hlen, by simp [hlen]⟩

/-- Witness of C15: the release of `exDragging`, whose ghost has the adjusted
length `4`. -/
theorem C15_release_returns_to_idle_witness :
    ∃ s2, MouseRelease exEnv exDragging = some s2 ∧ s2.ghost_ = none ∧
      s2.snap_points_ = [] ∧ ∃ batch, s2.undo_stack = exDragging.undo_stack ++ [batch] := by
  obtain ⟨s2, h1, h2, h3, -, h5, -, -⟩ := C15_release_returns_to_idle exEnv exDragging _ rfl
  exact ⟨s2, h1, h2, h3, h5 (by norm_num [exEnv])⟩

/-- C17 (the code at the failing input): with no ghost, that is in the idle
state and after a rejected press on the locked track, `MouseRelease` does not
return: its first statement calls `ghost_->GetTrack()` on the null pointer. -/
theorem C17_release_without_ghost_dereferences_null :
    exIdle.ghost_ = none ∧ MouseRelease exEnv exIdle = none ∧
    (MousePress exTimeline (exEvent 3 1) exRes exIdle).ghost_ = none ∧
    MouseRelease exEnv (MousePress exTimeline (exEvent 3 1) exRes exIdle) = none := by
  have hrej : MousePress exTimeline (exEvent 3 1) exRes exIdle = exIdle := by
    simp [MousePress, GetBlocksAtCoord, exEvent, exTimeline, exLockedTrack]
  rw [hrej]
  exact ⟨rfl, rfl, rfl, rfl⟩

/-- Whether `GetBlocksAtCoord` succeeds, and what it resolves when it does,
does not depend on the values the output parameters hold before the call. -/
theorem GetBlocksAtCoord_res_indep (tl : Timeline) (coord : TimelineCoordinate)
    (r1 r2 : BlocksAtCoord) (h : (GetBlocksAtCoord tl coord r1).1 = true) :
    (GetBlocksAtCoord tl coord r2).1 = true ∧
      (GetBlocksAtCoord tl coord r2).2 = (GetBlocksAtCoord tl coord r1).2 := by
  rcases GetBlocksAtCoord_cases tl coord r1 with ⟨hf, -⟩ | ⟨t, b, hT, hL, hB, hC, hside⟩
  · rw [hf] at h
    exact absurd h Bool.false_ne_true
  · rcases hside with ⟨hS, hI, hr⟩ | ⟨hS, hO, hr⟩
    · rw [hr]
      simp [GetBlocksAtCoord, hT, hL, hB, hC, hS, hI]
    · rw [hr]
      simp [GetBlocksAtCoord, hT, hL, hB, hC, hS, hO]

/-- C18: `HoverMove` asks for the overlay `(none, none)` when
`GetBlocksAtCoord` fails; when it succeeds, a press at the same coordinate
followed by a move and a release of nonzero adjusted length pushes a batch,
and the overlay is the block that batch connects to the out-block input (none
if it connects none) and the block it connects to the in-block input (none if
it connects none); `HoverMove` changes nothing but the overlay. -/
theorem C18_hover_agrees_with_release (env : ToolEnv) (tl : Timeline)
    (hover press move : TimelineViewMouseEvent) (uninit : BlocksAtCoord) (s0 s : ToolState)
    (hcoord : press.GetCoordinates = hover.GetCoordinates) :
    ((GetBlocksAtCoord tl hover.GetCoordinates uninit).1 = false →
      (HoverMove tl hover s0).overlay = (none, none)) ∧
    ((GetBlocksAtCoord tl hover.GetCoordinates uninit).1 = true →
      (∃ g, (MouseMove env move (MousePress tl press uninit s)).ghost_ = some g ∧
        env.GetAdjustedLength g ≠ 0) →
      ∃ s2 batch,
        MouseRelease env (MouseMove env move (MousePress tl press uninit s)) = some s2 ∧
        s2.undo_stack = s.undo_stack ++ [batch] ∧
        (HoverMove tl hover s0).overlay =
          (connectedTo TransitionInput.kOutBlockInput batch,
           connectedTo TransitionInput.kInBlockInput batch)) ∧
    ((HoverMove tl hover s0).ghost_ = s0.ghost_ ∧
      (HoverMove tl hover s0).dual_transition_ = s0.dual_transition_ ∧
      (HoverMove tl hover s0).snap_points_ = s0.snap_points_ ∧
      (HoverMove tl hover s0).drag_start_point_ = s0.drag_start_point_ ∧
      (HoverMove tl hover s0).ghosts = s0.ghosts ∧
      (HoverMove tl hover s0).undo_stack = s0.undo_stack) := by
  refine ⟨fun hfail => ?_, fun hok hlen => ?_, rfl, rfl, rfl, rfl, rfl, rfl⟩
  · have hfail2 : GetBlocksAtCoord tl hover.GetCoordinates
        { primary := none, secondary := none, trim_mode := MovementMode.kNone,
          start_point := 0 } =
        (false, { primary := none, secondary := none, trim_mode := MovementMode.kNone,
                  start_point := 0 }) := by
      rcases GetBlocksAtCoord_cases tl hover.GetCoordinates
        { primary := none, secondary := none, trim_mode := MovementMode.kNone,
          start_point := 0 } with ⟨hf, -⟩ | ⟨t, b, hT, hL, hB, hC, hside⟩
      · exact hf
      · exfalso
        have hone : (GetBlocksAtCoord tl hover.GetCoordinates
            { primary := none, secondary := none, trim_mode := MovementMode.kNone,
              start_point := 0 }).1 = true := by
          rcases hside with ⟨-, -, hr⟩ | ⟨-, -, hr⟩ <;> rw [hr]
        have := (GetBlocksAtCoord_res_indep tl hover.GetCoordinates _ uninit hone).1
        rw [hfail] at this
        exact absurd this Bool.false_ne_true
    simp [HoverMove, hfail2]
  · obtain ⟨g, hg, hne⟩ := hlen
    have hhover := GetBlocksAtCoord_res_indep tl hover.GetCoordinates uninit
      { primary := none, secondary := none, trim_mode := MovementMode.kNone,
        start_point := 0 } hok
    rw [← hcoord] at hok hhover
    have hpress := MousePress_of_success tl press uninit s hok
    have hpg : (MousePress tl press uninit s).ghost_ =
        some (pressGhost press (GetBlocksAtCoord tl press.GetCoordinates uninit).2) := by
      rw [hpress]
    obtain ⟨g2, hg2, hmode, hatt, href, -, hdual, hundo⟩ :=
      MouseMove_of_ghost env move (MousePress tl press uninit s) _ hpg
    rw [hg] at hg2
    simp only [Option.some.injEq] at hg2
    subst hg2
    have hd : (MouseMove env move (MousePress tl press uninit s)).dual_transition_ =
        (GetBlocksAtCoord tl press.GetCoordinates uninit).2.secondary.isSome := by
      rw [hdual, hpress]
    have hu : (MouseMove env move (MousePress tl press uninit s)).undo_stack = s.undo_stack := by
      rw [hundo, hpress]
    simp only [pressGhost] at hmode hatt href
    refine ⟨_, releaseCommands env
      (GetBlocksAtCoord tl press.GetCoordinates uninit).2.secondary.isSome g,
      MouseRelease_nonzero env _ g hg hne, ?_, ?_⟩
    · simp [hd, hu]
    · rcases GetBlocksAtCoord_cases tl press.GetCoordinates uninit with
        ⟨hf, -⟩ | ⟨t, b, hT, hL, hB, hC, hside⟩
      · rw [hf] at hok
        exact absurd hok Bool.false_ne_true
      · have hmodes : (GetBlocksAtCoord tl press.GetCoordinates uninit).2.primary = some b ∧
            ((GetBlocksAtCoord tl press.GetCoordinates uninit).2.trim_mode
                = MovementMode.kTrimIn ∨
              (GetBlocksAtCoord tl press.GetCoordinates uninit).2.trim_mode
                = MovementMode.kTrimOut) := by
          rcases hside with ⟨-, -, hr⟩ | ⟨-, -, hr⟩ <;> rw [hr] <;> simp
        obtain ⟨hprim, hm⟩ := hmodes
        rw [hprim] at hatt
        simp only [HoverMove, ← hcoord, hhover.2, hprim]
        cases hsec : (GetBlocksAtCoord tl press.GetCoordinates uninit).2.secondary with
        | none =>
          rw [hsec] at href
          rcases hm with hm | hm <;>
            simp [releaseCommands, connectedTo, hmode, hatt, href, hm]
        | some x =>
          rw [hsec] at href
          rcases hm with hm | hm <;>
            simp [releaseCommands, connectedTo, hmode, hatt, href, hm]

/-- Witness of C18: a hover on the locked track `1`, and a hover at frame
`19/2` on the track `0` compared with the press there, the move to frame `12`
and the release. -/
theorem C18_hover_agrees_with_release_witness :
    (HoverMove exTimeline (exEvent 3 1) exIdle).overlay = (none, none) ∧
    ∃ s2 batch,
      MouseRelease exEnv
        (MouseMove exEnv (exEvent 12 0)
          (MousePress exTimeline (exEvent (19 / 2) 0) exRes exIdle)) = some s2 ∧
      s2.undo_stack = exIdle.undo_stack ++ [batch] ∧
      (HoverMove exTimeline (exEvent (19 / 2) 0) exIdle).overlay =
        (connectedTo TransitionInput.kOutBlockInput batch,
         connectedTo TransitionInput.kInBlockInput batch) :=
  ⟨(C18_hover_agrees_with_release exEnv exTimeline (exEvent 3 1) (exEvent 3 1) (exEvent 3 1)
      exRes exIdle exIdle rfl).1
      (by simp [GetBlocksAtCoord, exEvent, exTimeline, exLockedTrack]),
   (C18_hover_agrees_with_release exEnv exTimeline (exEvent (19 / 2) 0) (exEvent (19 / 2) 0)
      (exEvent 12 0) exRes exIdle exIdle rfl).2.1
      (by norm_num [GetBlocksAtCoord, exEvent, exTimeline, exTrack, exClipA])
      (by
        have hok : (GetBlocksAtCoord exTimeline (exEvent (19 / 2) 0).GetCoordinates exRes).1
            = true := by
          norm_num [GetBlocksAtCoord, exEvent, exTimeline, exTrack, exClipA]
        rw [MousePress_of_success exTimeline (exEvent (19 / 2) 0) exRes exIdle hok]
        norm_num [MouseMove, pressGhost, exEnv, exEvent, GetBlocksAtCoord, exTimeline, exTrack,
          exClipA, exClipB, isClipBlock])⟩

/-! ## Theorems on the keyframe invariant -/

section InvariantTheorems

variable {V : Type}

/-- Writing a port that has a keyframe keeps the invariant. -/
theorem KeyframesNonEmpty_setInput (g : Graph V) (i : Nat) (p : NodeInput V)
    (h : KeyframesNonEmpty g) (hp : p.keyframes_ ≠ []) : KeyframesNonEmpty (g.setInput i p) := by
  intro j
  by_cases hj : j = i
  · subst hj
    simpa using hp
  · rw [setInput_inputs_other g i j p hj]
    exact h j

/-- Writing an output port keeps the invariant. -/
theorem KeyframesNonEmpty_setOutput (g : Graph V) (o : Nat) (p : NodeOutput V)
    (h : KeyframesNonEmpty g) : KeyframesNonEmpty (g.setOutput o p) :=
  fun j => h j

/-- The method `NodeOutput::get_value` keeps the invariant when `Run` does. -/
theorem output_get_value_invariant (Run : Nat → Nat → rational → Graph V → V × Graph V)
    (hRun : ∀ n p t g, KeyframesNonEmpty g → KeyframesNonEmpty (Run n p t g).2)
    (self : Nat) (time : rational) (w : World V) (v : V) (w1 : World V)
    (hinv : KeyframesNonEmpty w.graph)
    (h : NodeOutput.get_value Run self time w = some (v, w1)) :
    KeyframesNonEmpty w1.graph := by
  by_cases ht : (w.graph.outputs self).time_ = time
  · rw [output_get_value_hit Run self time w ht] at h
    simp only [Option.some.injEq, Prod.mk.injEq] at h
    rw [← h.2]
    exact hinv
  · cases hp : (w.graph.outputs self).parent with
    | none => simp [NodeOutput.get_value, ht, hp] at h
    | some n =>
      rw [output_get_value_miss Run self time w n hp ht] at h
      simp only [Option.some.injEq, Prod.mk.injEq] at h
      rw [← h.2]
      exact KeyframesNonEmpty_setOutput _ _ _
        (KeyframesNonEmpty_setOutput _ _ _ (hRun n self time w.graph hinv))

/-- C16: a freshly constructed input port has exactly one keyframe, and
`add_data_input`, `get_value` (for an evaluation function `Run` that keeps the
invariant), `set_value`, `set_keyframing`, `set_dependent` and `CopyValues`
leave every input port with at least one keyframe when every port had one
before; under the invariant `set_value` and `get_value` of an unconnected port
return, so their reads of the first keyframe never hit an empty list. -/
theorem C16_keyframes_nonempty :
    (∀ (parent : Option Nat) (time0 : rational) (value0 : V) (k0 : NodeKeyframe V),
      (NodeInput.new parent time0 value0 k0).keyframes_.length = 1) ∧
    (∀ (name : Nat → String) (self data_type : Nat) (g : Graph V),
      KeyframesNonEmpty g → KeyframesNonEmpty (NodeInput.add_data_input name self data_type g)) ∧
    (∀ (Run : Nat → Nat → rational → Graph V → V × Graph V),
      (∀ n p t g, KeyframesNonEmpty g → KeyframesNonEmpty (Run n p t g).2) →
      ∀ (self : Nat) (t : rational) (w : World V) (v : V) (w1 : World V),
        KeyframesNonEmpty w.graph → NodeInput.get_value Run self t w = some (v, w1) →
        KeyframesNonEmpty w1.graph) ∧
    (∀ (Run : Nat → Nat → rational → Graph V → V × Graph V) (self : Nat) (t : rational)
      (w : World V), KeyframesNonEmpty w.graph →
        NodeInput.get_connected_output self w.graph = none →
        (NodeInput.get_value Run self t w).isSome = true) ∧
    (∀ (lo hi : rational) (self : Nat) (v : V) (w : World V), KeyframesNonEmpty w.graph →
      ∃ w1, NodeInput.set_value lo hi self v w = some w1 ∧ KeyframesNonEmpty w1.graph) ∧
    (∀ (self : Nat) (k : Bool) (g : Graph V),
      KeyframesNonEmpty g → KeyframesNonEmpty (NodeInput.set_keyframing self k g)) ∧
    (∀ (self : Nat) (d : Bool) (g : Graph V),
      KeyframesNonEmpty g → KeyframesNonEmpty (NodeInput.set_dependent self d g)) ∧
    (∀ (source dest : Nat) (g : Graph V),
      KeyframesNonEmpty g → KeyframesNonEmpty (NodeInput.CopyValues source dest g)) := by
  refine ⟨?_, ?_, ?_, ?_, ?_, ?_, ?_, ?_⟩
  · intro parent time0 value0 k0
    simp [NodeInput.new]
  · intro name self data_type g hinv
    have h1 : KeyframesNonEmpty (g.setInput self
        { g.inputs self with inputs_ := (g.inputs self).inputs_ ++ [data_type] }) :=
      KeyframesNonEmpty_setInput g self _ hinv (hinv self)
    unfold NodeInput.add_data_input
    simp only
    split
    · exact KeyframesNonEmpty_setInput _ self _ h1 (h1 self)
    · exact h1
  · intro Run hRun self t w v w1 hinv h
    by_cases ht : (w.graph.inputs self).time_ = t
    · rw [input_get_value_hit Run self t w ht] at h
      simp only [Option.some.injEq, Prod.mk.injEq] at h
      rw [← h.2]
      exact hinv
    · cases he : (w.graph.inputs self).edges_ with
      | nil =>
        cases hk : (w.graph.inputs self).keyframes_ with
        | nil => exact absurd hk (hinv self)
        | cons k ks =>
          simp only [NodeInput.get_value, ht, he, hk, ne_eq, not_false_eq_true, ite_true,
            Option.some.injEq, Prod.mk.injEq] at h
          rw [← h.2]
          refine KeyframesNonEmpty_setInput _ self _
            (KeyframesNonEmpty_setInput _ self _ hinv ?_) ?_
          · simp
          · simp
      | cons e es =>
        cases ho : NodeOutput.get_value Run e.output t
            { graph := w.graph, log := w.log ++ [Event.Pull self e.output t] } with
        | none => simp [NodeInput.get_value, ht, he, ho] at h
        | some r =>
          obtain ⟨rv, rw1⟩ := r
          have hout := output_get_value_invariant Run hRun e.output t
            { graph := w.graph, log := w.log ++ [Event.Pull self e.output t] } rv rw1 hinv ho
          simp only [NodeInput.get_value, ht, he, ho, ne_eq, not_false_eq_true, ite_true,
            Option.some.injEq, Prod.mk.injEq] at h
          rw [← h.2]
          refine KeyframesNonEmpty_setInput _ self _
            (KeyframesNonEmpty_setInput _ self _ hout ?_) ?_
          · simpa using hout self
          · simpa using hout self
  · intro Run self t w hinv hnone
    cases he : (w.graph.inputs self).edges_ with
    | cons e es => simp [NodeInput.get_connected_output, he] at hnone
    | nil =>
      cases hk : (w.graph.inputs self).keyframes_ with
      | nil => exact absurd hk (hinv self)
      | cons k ks =>
        by_cases ht : (w.graph.inputs self).time_ = t
        · simp [NodeInput.get_value, ht]
        · simp [NodeInput.get_value, ht, he, hk]
  · intro lo hi self v w hinv
    by_cases hkf : (w.graph.inputs self).keyframing_ = true
    · exact ⟨{ graph := w.graph,
               log := mutexEvent Event.Unlock (w.graph.inputs self).parent
                 (mutexEvent Event.Lock (w.graph.inputs self).parent w.log) },
        by simp [NodeInput.set_value, NodeInput.keyframing, hkf], hinv⟩
    · cases hk : (w.graph.inputs self).keyframes_ with
      | nil => exact absurd hk (hinv self)
      | cons k ks =>
        exact ⟨_, set_value_not_keyframing lo hi self v w k ks (by simpa using hkf) hk,
          KeyframesNonEmpty_setInput _ self _ hinv (by simp)⟩
  · intro self k g hinv
    exact KeyframesNonEmpty_setInput g self _ hinv (hinv self)
  · intro self d g hinv
    exact KeyframesNonEmpty_setInput g self _ hinv (hinv self)
  · intro source dest g hinv
    have h1 : KeyframesNonEmpty (g.setInput dest
        { g.inputs dest with keyframes_ := (g.inputs source).keyframes_ }) :=
      KeyframesNonEmpty_setInput g dest _ hinv (hinv source)
    have h2 : KeyframesNonEmpty (NodeInput.set_keyframing dest
        (NodeInput.keyframing source (g.setInput dest
          { g.inputs dest with keyframes_ := (g.inputs source).keyframes_ }))
        (g.setInput dest { g.inputs dest with keyframes_ := (g.inputs source).keyframes_ })) :=
      KeyframesNonEmpty_setInput _ dest _ h1 (h1 dest)
    unfold NodeInput.CopyValues
    simp only
    split
    · exact KeyframesNonEmpty_setInput _ dest _ h2 (h2 dest)
    · exact h2

/-- Every input port of the heap `exGraph` has a keyframe. -/
theorem exGraph_keyframes_nonempty : KeyframesNonEmpty exGraph := by
  intro i
  by_cases h1 : i = 1
  · simp [exGraph, h1, exInputConnected]
  · by_cases h2 : i = 2
    · simp [exGraph, h2, exInputKeyframed]
    · simp [exGraph, h1, h2, exInput]

/-- Witness of C16: on the heap `exGraph`, copying the port `1` to the port
`0`, `set_value(7)` on the port `0` and `get_value(1)` on the unconnected
port `2`. -/
theorem C16_keyframes_nonempty_witness :
    KeyframesNonEmpty exGraph ∧
    KeyframesNonEmpty (NodeInput.CopyValues 1 0 exGraph) ∧
    (∃ w1, NodeInput.set_value (-100) 100 0 7 exWorld = some w1 ∧
      KeyframesNonEmpty w1.graph) ∧
    (NodeInput.get_value exRun 2 1 exWorld).isSome = true :=
  ⟨exGraph_keyframes_nonempty,
   (@C16_keyframes_nonempty Int).2.2.2.2.2.2.2 1 0 exGraph exGraph_keyframes_nonempty,
   (@C16_keyframes_nonempty Int).2.2.2.2.1 (-100) 100 0 7 exWorld exGraph_keyframes_nonempty,
   (@C16_keyframes_nonempty Int).2.2.2.1 exRun 2 1 exWorld exGraph_keyframes_nonempty rfl⟩

end InvariantTheorems

/-! ## Theorems on the keyframe sort -/

/-- The inner loop inserts the index: the result is a permutation of the
index put in front of the vector. -/
theorem insertKey_perm (times : List Int) (i : Nat) (l : List Nat) :
    (insertKey times i l).Perm (i :: l) := by
  induction l with
  | nil => exact List.Perm.refl _
  | cons k ks ih =>
    unfold insertKey
    split
    · exact List.Perm.refl _
    · exact ((List.Perm.cons k ih).trans (List.Perm.swap i k ks))

/-- After `n` rounds the vector is a permutation of `0, ..., n - 1`. -/
theorem sortLoop_perm (times : List Int) (n : Nat) :
    (sortLoop times n).Perm (List.range n) := by
  induction n with
  | zero => exact List.Perm.refl _
  | succ n ih =>
    rw [List.range_succ]
    exact ((insertKey_perm times n _).trans (List.Perm.cons n ih)).trans
      (List.perm_append_singleton n (List.range n)).symm

/-- The inner loop keeps the vector ordered by time and then by index, when
the inserted index is larger than every index of the vector. -/
theorem insertKey_pairwise (times : List Int) (i : Nat) (l : List Nat)
    (hl : List.Pairwise (keyBefore times) l) (hi : ∀ k ∈ l, k < i) :
    List.Pairwise (keyBefore times) (insertKey times i l) := by
  induction l with
  | nil => simp [insertKey]
  | cons k ks ih =>
    rw [List.pairwise_cons] at hl
    obtain ⟨hk, hks⟩ := hl
    unfold insertKey
    split
    · rename_i hgt
      refine List.pairwise_cons.mpr ⟨?_, List.pairwise_cons.mpr ⟨hk, hks⟩⟩
      intro x hx
      rcases List.mem_cons.mp hx with hxk | hxks
      · subst hxk
        exact Or.inl hgt
      · rcases hk x hxks with hlt | ⟨heq, -⟩
        · exact Or.inl (lt_trans hgt hlt)
        · exact Or.inl (heq ▸ hgt)
    · rename_i hle
      have hle2 : times.getD k 0 ≤ times.getD i 0 := not_lt.mp hle
      refine List.pairwise_cons.mpr
        ⟨?_, ih hks (fun x hx => hi x (List.mem_cons_of_mem k hx))⟩
      intro x hx
      rcases List.mem_cons.mp ((insertKey_perm times i ks).mem_iff.mp hx) with hxi | hxks
      · subst hxi
        rcases lt_or_eq_of_le hle2 with hlt | heq
        · exact Or.inl hlt
        · exact Or.inr ⟨heq, hi k (List.mem_cons_self k ks)⟩
      · exact hk x hxks

/-- After `n` rounds the vector is ordered by time and then by index. -/
theorem sortLoop_pairwise (times : List Int) (n : Nat) :
    List.Pairwise (keyBefore times) (sortLoop times n) := by
  induction n with
  | zero => exact List.Pairwise.nil
  | succ n ih =>
    exact insertKey_pairwise times n _ ih
      (fun k hk => List.mem_range.mp ((sortLoop_perm times n).mem_iff.mp hk))

/-- C19: the vector `sorted_keys` built by the insertion loop of
`GraphView::paintEvent` is a permutation of `0, ..., n - 1`, the times it
indexes are in non-decreasing order, and indices of equal times keep their
original relative order. -/
theorem C19_sorted_keys (keyframe_times : List Int) :
    (sorted_keys keyframe_times).Perm (List.range keyframe_times.length) ∧
    List.Pairwise (fun a b => keyframe_times.getD a 0 ≤ keyframe_times.getD b 0)
      (sorted_keys keyframe_times) ∧
    List.Pairwise (fun a b => keyframe_times.getD a 0 = keyframe_times.getD b 0 → a < b)
      (sorted_keys keyframe_times) := by
  refine ⟨sortLoop_perm keyframe_times _, ?_, ?_⟩
  · refine List.Pairwise.imp ?_ (sortLoop_pairwise keyframe_times keyframe_times.length)
    intro a b hab
    rcases hab with hlt | ⟨heq, -⟩
    · exact le_of_lt hlt
    · exact le_of_eq heq
  · refine List.Pairwise.imp ?_ (sortLoop_pairwise keyframe_times keyframe_times.length)
    intro a b hab heq
    rcases hab with hlt | ⟨-, hidx⟩
    · exact absurd heq (ne_of_lt hlt)
    · exact hidx

end olive
